import Mathlib

/-!
Verification development for the Slack message handler of
`SherifMesallam/sagan-slack-bot` (`src/handlers/messageHandler.js`).

The handler `handleSlackMessageEventInternal` is shallowly embedded as a pure
Lean function from an inbound Slack event, a read-only configuration object,
and an environment (the results of all external calls: Slack chat API, the
thread-mapping store, the LLM backend, the intent classifier, the command
executors) to a trace of effect events.  Machinery the handler only calls
(command executors, `queryLlm`, …) whose source is outside the handler file is
represented by opaque environment results; functions whose source is absent
from the repository snapshot but whose behaviour the spec fixes are modelled
from the spec and marked as such in their doc comments.

JS strings are modelled as Lean `String`; JS `\s`, `\w`, `\d`, `.` character
classes and `trim`/`toLowerCase` are modelled over ASCII, which the claims
never leave.  JS truthiness of an optional string (`undefined`/`null`/`""`
falsy) is modelled by `truthyO`.
-/

namespace Sagan

/-- JS `\s` class (ASCII part): space, tab, newline, carriage return,
vertical tab, form feed. -/
def isWsC (c : Char) : Bool :=
  c = ' ' || c = '\t' || c = '\n' || c = '\r' || c = '\x0b' || c = '\x0c'

/-- JS line terminators (the characters `.` does not match); ASCII part. -/
def isLineTermC (c : Char) : Bool := c = '\n' || c = '\r'

/-- JS `\w` class: `[A-Za-z0-9_]`. -/
def isWordC (c : Char) : Bool :=
  ('a' ≤ c && c ≤ 'z') || ('A' ≤ c && c ≤ 'Z') || ('0' ≤ c && c ≤ '9') || c = '_'

/-- The `[\w.-]` class used for owner / repo / repo_id captures. -/
def isWordDotC (c : Char) : Bool := isWordC c || c = '.' || c = '-'

/-- The `[\w-]` class used for workspace-slug captures. -/
def isWordDashC (c : Char) : Bool := isWordC c || c = '-'

/-- JS `\d` class. -/
def isDigitC (c : Char) : Bool := '0' ≤ c && c ≤ '9'

/-- ASCII lower-casing of one character (model of JS `toLowerCase`). -/
def lcC (c : Char) : Char :=
  if 'A' ≤ c && c ≤ 'Z' then Char.ofNat (c.toNat + 32) else c

/-- Lower-case a character list. -/
def lcL (l : List Char) : List Char := l.map lcC

/-- Model of JS `String.prototype.trim` (ASCII whitespace). -/
def trimL (l : List Char) : List Char :=
  ((l.dropWhile isWsC).reverse.dropWhile isWsC).reverse

def trimS (s : String) : String := ⟨trimL s.data⟩

/-- Lower-case a string (ASCII). -/
def lowerS (s : String) : String := ⟨lcL s.data⟩

/-- Does `l` begin with the literal `pat` (exact characters)? -/
def beginsWith : List Char → List Char → Bool
  | [], _ => true
  | _ :: _, [] => false
  | p :: ps, c :: cs => p = c && beginsWith ps cs

/-- String-level `startsWith` built on `beginsWith`. -/
def startsWithS (s pat : String) : Bool := beginsWith pat.data s.data

/-- Consume the literal `pat` case-insensitively from the front of `l`
(the `i` flag of the command regexes); `none` when `l` does not begin
with it. -/
def litCI : List Char → List Char → Option (List Char)
  | [], l => some l
  | _ :: _, [] => none
  | p :: ps, c :: cs => if lcC p = lcC c then litCI ps cs else none

/-- Remove the first occurrence of `pat` from `l`
(model of JS `String.prototype.replace` with a string pattern and `""`). -/
def removeFirstL (pat : List Char) : List Char → List Char
  | [] => []
  | c :: cs =>
    if pat.isPrefixOf (c :: cs) then (c :: cs).drop pat.length
    else c :: removeFirstL pat cs

def removeFirstS (pat s : String) : String := ⟨removeFirstL pat.data s.data⟩

/-- Value of a nonempty decimal-digit capture (JS `parseInt` on a `\d+`
capture, which never yields `NaN`). -/
def digitsToNat (l : List Char) : Nat :=
  l.foldl (fun a c => a * 10 + (c.toNat - '0'.toNat)) 0

/-- Truthiness of an optional JS string: `undefined`/`null` and `""` are
falsy. -/
def truthyO : Option String → Bool
  | none => false
  | some s => s ≠ ""

/-! ### Command-grammar parsers

Each parser is the shallow embedding of one of the anchored, case-insensitive
regexes declared at the top of `messageHandler.js` (lines 50–53), applied to
the cleaned query.  Because every character class in those regexes is disjoint
from the literal that follows it (whitespace never occurs inside `[\w.-]`,
`[\w-]`, `\d`; `/` and `#` occur in no class), the backtracking regex match is
equivalent to the deterministic longest-run parse implemented here; the one
place where genuine backtracking occurs — the optional
`(?:\s*#(?<workspace_slug>[\w-]+))?` group of the issue-analysis regex, which
the engine abandons when the rest of the pattern cannot complete after it —
is reproduced by `issueTail` trying the group first and retrying without it.
-/

/-- Tail `(?:\s+(?<p>.+))?\s*$` of the issue-analysis regex (also the
mandatory `\s+(?<api_query>.+)\s*$` tail of the generic-API regex when the
result is required to be `some (some _)`).  Returns `none` when the tail
cannot match at all, `some none` when it matches with the optional prompt
group skipped, and `some (some p)` when the group captures `p`.
JS `.` does not match line terminators and `$` (no `m` flag) anchors at the
end of the whole string. -/
def promptTail (r : List Char) : Option (Option String) :=
  let w := r.takeWhile isWsC
  let r1 := r.dropWhile isWsC
  if r1 ≠ [] then
    -- not all whitespace: `\s+` must take the maximal whitespace run and
    -- `.+` the maximal non-line-terminator run after it
    if w = [] then none
    else
      let p := r1.takeWhile (fun c => !isLineTermC c)
      let r2 := r1.dropWhile (fun c => !isLineTermC c)
      if r2.all isWsC then some (some ⟨p⟩) else none
  else
    -- all whitespace: the group still matches when some whitespace character
    -- at index ≥ 1 is not a line terminator (greedy `\s+` backtracks to the
    -- largest such index and `.+` captures whitespace)
    match (List.range r.length).filter
        (fun i => 1 ≤ i && !isLineTermC (r.getD i ' ')) |>.max? with
    | some k => some (some ⟨(r.drop k).takeWhile (fun c => !isLineTermC c)⟩)
    | none => some none

/-- Capture record of `ISSUE_ANALYSIS_REGEX`. -/
structure IssueCap where
  owner : Option String
  repo : Option String
  digits : List Char
  wsSlug : Option String
  userPrompt : Option String
  deriving DecidableEq, Repr

/-- Tail `(?:\s*#(?<workspace_slug>[\w-]+))?(?:\s+(?<user_prompt>.+))?\s*$`
of the issue-analysis regex: try the workspace group first (greedy), fall
back to skipping it. -/
def issueTail (r : List Char) : Option (Option String × Option String) :=
  let withoutWs := (promptTail r).map (fun p => ((none : Option String), p))
  match r.dropWhile isWsC with
  | '#' :: r1 =>
    let slug := r1.takeWhile isWordDashC
    let r2 := r1.dropWhile isWordDashC
    if slug ≠ [] then
      match promptTail r2 with
      | some p => some (some ⟨slug⟩, p)
      | none => withoutWs
    else withoutWs
  | _ => withoutWs

/-- `RELEASE_REGEX` =
`^P\s*release\s+(?<repo_id>[\w.-]+(?:\/[\w.-]+)?)\s*$` (flag `i`), where `P`
is the escaped command prefix.  Returns the `repo_id` capture. -/
def releaseMatch (pfx : String) (q : String) : Option String :=
  match litCI pfx.data q.data with
  | none => none
  | some r0 =>
    let r1 := r0.dropWhile isWsC
    match litCI "release".data r1 with
    | none => none
    | some r2 =>
      let w := r2.takeWhile isWsC
      let r3 := r2.dropWhile isWsC
      if w = [] then none
      else
        let s1 := r3.takeWhile isWordDotC
        let r4 := r3.dropWhile isWordDotC
        if s1 = [] then none
        else
          match r4 with
          | '/' :: r5 =>
            let s2 := r5.takeWhile isWordDotC
            let r6 := r5.dropWhile isWordDotC
            if s2 ≠ [] && r6.all isWsC then some ⟨s1 ++ '/' :: s2⟩ else none
          | _ => if r4.all isWsC then some ⟨s1⟩ else none

/-- Capture record of `PR_REVIEW_REGEX`. -/
structure PrCap where
  owner : String
  repo : String
  digits : List Char
  wsSlug : String
  deriving DecidableEq, Repr

/-- `PR_REVIEW_REGEX` =
`^P\s*review\s+pr\s+(?<owner>[\w.-]+)\/(?<repo>[\w.-]+)#(?<pr_number>\d+)\s+#(?<workspace_slug>[\w-]+)\s*$`
(flag `i`). -/
def prMatch (pfx : String) (q : String) : Option PrCap :=
  match litCI pfx.data q.data with
  | none => none
  | some r0 =>
    let r1 := r0.dropWhile isWsC
    match litCI "review".data r1 with
    | none => none
    | some r2 =>
      let w1 := r2.takeWhile isWsC
      let r3 := r2.dropWhile isWsC
      if w1 = [] then none
      else
        match litCI "pr".data r3 with
        | none => none
        | some r4 =>
          let w2 := r4.takeWhile isWsC
          let r5 := r4.dropWhile isWsC
          if w2 = [] then none
          else
            let ow := r5.takeWhile isWordDotC
            let r6 := r5.dropWhile isWordDotC
            if ow = [] then none
            else
              match r6 with
              | '/' :: r7 =>
                let rp := r7.takeWhile isWordDotC
                let r8 := r7.dropWhile isWordDotC
                if rp = [] then none
                else
                  match r8 with
                  | '#' :: r9 =>
                    let ds := r9.takeWhile isDigitC
                    let r10 := r9.dropWhile isDigitC
                    if ds = [] then none
                    else
                      let w3 := r10.takeWhile isWsC
                      let r11 := r10.dropWhile isWsC
                      if w3 = [] then none
                      else
                        match r11 with
                        | '#' :: r12 =>
                          let sl := r12.takeWhile isWordDashC
                          let r13 := r12.dropWhile isWordDashC
                          if sl ≠ [] && r13.all isWsC then
                            some ⟨⟨ow⟩, ⟨rp⟩, ds, ⟨sl⟩⟩
                          else none
                        | _ => none
                  | _ => none
              | _ => none

/-- `ISSUE_ANALYSIS_REGEX` =
`^P\s*(?:analyze|summarize|explain)\s+issue\s+(?:(?<owner>[\w.-]+)\/(?<repo>[\w.-]+))?#(?<issue_number>\d+)(?:\s*#(?<workspace_slug>[\w-]+))?(?:\s+(?<user_prompt>.+))?\s*$`
(flag `i`). -/
def issueMatch (pfx : String) (q : String) : Option IssueCap :=
  match litCI pfx.data q.data with
  | none => none
  | some r0 =>
    let r1 := r0.dropWhile isWsC
    let kw :=
      match litCI "analyze".data r1 with
      | some r => some r
      | none =>
        match litCI "summarize".data r1 with
        | some r => some r
        | none => litCI "explain".data r1
    match kw with
    | none => none
    | some r2 =>
      let w1 := r2.takeWhile isWsC
      let r3 := r2.dropWhile isWsC
      if w1 = [] then none
      else
        match litCI "issue".data r3 with
        | none => none
        | some r4 =>
          let w2 := r4.takeWhile isWsC
          let r5 := r4.dropWhile isWsC
          if w2 = [] then none
          else
            -- optional `(?:(?<owner>[\w.-]+)\/(?<repo>[\w.-]+))?` then `#`
            let step :
                Option (Option String × Option String × List Char) :=
              match r5 with
              | '#' :: r6 => some (none, none, r6)
              | _ =>
                let ow := r5.takeWhile isWordDotC
                let r6 := r5.dropWhile isWordDotC
                if ow = [] then none
                else
                  match r6 with
                  | '/' :: r7 =>
                    let rp := r7.takeWhile isWordDotC
                    let r8 := r7.dropWhile isWordDotC
                    if rp = [] then none
                    else
                      match r8 with
                      | '#' :: r9 => some (some ⟨ow⟩, some ⟨rp⟩, r9)
                      | _ => none
                  | _ => none
            match step with
            | none => none
            | some (ow, rp, r9) =>
              let ds := r9.takeWhile isDigitC
              let r10 := r9.dropWhile isDigitC
              if ds = [] then none
              else
                match issueTail r10 with
                | none => none
                | some (ws, up) => some ⟨ow, rp, ds, ws, up⟩

/-- `GENERIC_API_REGEX` = `^P\s*api\s+(?<api_query>.+)\s*$` (flag `i`). -/
def apiMatch (pfx : String) (q : String) : Option String :=
  match litCI pfx.data q.data with
  | none => none
  | some r0 =>
    let r1 := r0.dropWhile isWsC
    match litCI "api".data r1 with
    | none => none
    | some r2 =>
      match promptTail r2 with
      | some (some p) => some p
      | _ => none

/-! ### Data model -/

/-- Read-only configuration (`src/config.js`, imported at the top of the
handler).  `githubToken` and `hasOctokit` record presence of the GitHub
credentials and client object. -/
structure Config where
  botUserId : String
  commandPfx : String
  wsOverrideSigil : String
  githubToken : Bool
  hasOctokit : Bool
  intentRoutingEnabled : Bool
  intentConfidenceThreshold : Rat
  minSubstantive : Nat
  githubOwner : String
  githubWorkspaceSlug : String
  formatterWorkspaceSlug : String

/-- Inbound Slack event fields destructured on line 98. -/
structure SlackEvent where
  userId : String
  text : String
  channel : String
  ts : String
  threadTs : Option String

/-- Result shape of `detectIntentAndWorkspace` (spec §3, IntentResult). -/
structure IntentRes where
  intent : Option String
  confidence : Rat
  suggestedWorkspace : Option String
  deriving DecidableEq, Repr

/-- Stored thread mapping (`anythingllm_workspace_slug`,
`anythingllm_thread_slug`). -/
structure Mapping where
  wsSlug : String
  threadSlug : String
  deriving DecidableEq, Repr

/-- Segment kind of `extractTextAndCode` output (`segment.type`). -/
inductive SegKind where
  | text
  | code
  deriving DecidableEq, Repr

/-- One response segment (`{type, content, language}`). -/
structure Segment where
  kind : SegKind
  content : String
  language : Option String
  deriving DecidableEq, Repr

/-- Result of one Slack chat call: `ok ts` returns (a possibly missing)
timestamp, `err kind msg` models a thrown error with `error.data.error = kind`
and `error.message = msg`. -/
inductive SlackRes where
  | ok (ts : Option String)
  | err (kind msg : String)
  deriving DecidableEq, Repr

/-- Environment: the results every external call would produce during this
invocation.  Chat-call results are indexed by the per-method call count.
`classifyRaw` is the underlying inference call behind the intent classifier;
`resolveWs` is `determineWorkspace` keyed by the workspace suggestion (the
`userId`/`channelId` arguments are fixed for one invocation); `segmentsOf`
and `mdBlockOk` stand for `extractTextAndCode` and
`markdownToRichTextBlock` from `formattingService.js`; the four `…ExecRes`
fields are the boolean results of the command executors from
`commandHandler.js`. -/
structure Env where
  postRes : Nat → SlackRes
  updateRes : Nat → SlackRes
  deleteRes : Nat → SlackRes
  classifyRaw : Except String IntentRes
  resolveWs : Option String → Option String
  mapping : Option Mapping
  newThreadRes : String → Option String
  queryRes : Except String (Option String)
  releaseExecRes : Bool
  prExecRes : Bool
  issueExecRes : Bool
  apiExecRes : Bool
  segmentsOf : String → List Segment
  mdBlockOk : String → Bool

/-- Effect-trace events of one handler invocation. -/
inductive Ev where
  | log (msg : String)
  | post (channel target text : String) (blockSrc : Option String)
  | update (channel ts text : String)
  | del (channel ts : String)
  | caught (site msg : String)
  | runDeleteLast (channel target : String)
  | execRelease (repoId : String)
  | execPrReview (owner repo : String) (prNum : Nat) (ws : String)
  | execIssue (owner repo : String) (issueNum : Nat)
      (userPrompt : Option String) (ws threadSlug : String)
  | execApi (query : String)
  | classify (text : String)
  | resolveWs (suggested : Option String)
  | getMapping (channel target : String)
  | newThread (ws : String)
  | storeMapping (channel target ws threadSlug : String)
  | queryLlm (ws threadSlug text : String)
  | sleep (ms : Nat)
  deriving DecidableEq, Repr

/-- Per-method Slack call counters. -/
structure Ctr where
  post : Nat
  upd : Nat
  del : Nat

/-- One `slack.chat.postMessage` call: records the attempt and consumes one
post-result from the environment. -/
def doPost (env : Env) (c : Ctr) (chan tgt text : String)
    (blockSrc : Option String) : List Ev × Ctr × SlackRes :=
  ([.post chan tgt text blockSrc], { c with post := c.post + 1 }, env.postRes c.post)

/-! ### The handler embedding -/

/-- Catch block of `updateOrDeleteThinkingMessage` (lines 81-85): the error
is always swallowed; a warn log is emitted only when the error kind is
neither `message_not_found` nor `cant_update_message`. -/
def updODTCatch (isUpd : Bool) (kind msg : String) : List Ev :=
  [.caught "updODT" msg] ++
    (if kind ≠ "message_not_found" && kind ≠ "cant_update_message" then
      [.log ((if isUpd then "[Util] Failed to update thinking message: "
              else "[Util] Failed to delete thinking message: ") ++ msg)]
    else [])

/-- `updateOrDeleteThinkingMessage` (lines 65-86).  `updText = some t`
updates the placeholder message to `t`, `none` deletes it; a falsy timestamp
is a no-op and every thrown Slack error is caught inside. -/
def updODT (env : Env) (c : Ctr) (tsOpt : Option String) (chan : String)
    (updText : Option String) : List Ev × Ctr :=
  if !truthyO tsOpt then ([], c)
  else if chan = "" then
    ([.log "[Util/updateOrDeleteThinkingMessage] Missing Slack client or channel ID."], c)
  else
    match tsOpt with
    | none => ([], c)
    | some ts =>
      match updText with
      | some t =>
        match env.updateRes c.upd with
        | .ok _ => ([.update chan ts t], { c with upd := c.upd + 1 })
        | .err k m =>
          ([.update chan ts t] ++ updODTCatch true k m, { c with upd := c.upd + 1 })
      | none =>
        match env.deleteRes c.del with
        | .ok _ => ([.del chan ts], { c with del := c.del + 1 })
        | .err k m =>
          ([.del chan ts] ++ updODTCatch false k m, { c with del := c.del + 1 })

/-- User-facing PR-review format-error text (line 168). -/
def prFormatErrText : String :=
  "❌ Invalid format. Use: `gh> review pr owner/repo#number #workspace`"

/-- User-facing issue-number format-error text (line 220). -/
def issueFormatErrText : String :=
  "❌ Invalid issue number. Use format: `gh> analyze issue [#123 | owner/repo#123] [#optional-ws]`"

/-- Unknown-command reply text (line 238). -/
def unknownCmdText : String :=
  "❓ Unknown command. Try `gh> release ...`, `gh> review ...`, `gh> analyze ...`, or `gh> api ...`."

/-- PR-review stage (lines 158-172): on a structural match, parameters are
validated (`owner && repo && !isNaN(prNum) && workspace_slug`; `parseInt` of
a `\d+` capture is `NaN` only when the capture is empty) and either the
executor runs or the format error is shown and the message marked handled. -/
def prStage (cfg : Config) (env : Env) (c : Ctr) (q chan ts : String) :
    List Ev × Ctr × Bool :=
  match prMatch cfg.commandPfx q with
  | none => ([], c, false)
  | some cap =>
    if cap.owner ≠ "" && cap.repo ≠ "" && cap.digits ≠ [] && cap.wsSlug ≠ "" then
      ([.execPrReview cap.owner cap.repo (digitsToNat cap.digits) cap.wsSlug],
       c, env.prExecRes)
    else
      let u := updODT env c (some ts) chan (some prFormatErrText)
      ([.log "[Msg Handler] Invalid PR Review params"] ++ u.1, u.2, true)

/-- Context/thread-setup catch of the issue-analysis command (lines 213-217):
logs the error and updates the placeholder with a setup-error message; the
command is marked handled. -/
def issueCatch (env : Env) (c : Ctr) (chan ts msg : String) : List Ev × Ctr :=
  let u := updODT env c (some ts) chan
      (some ("❌ Error setting up context for issue analysis: " ++ msg))
  ([.caught "issueCmd" msg,
    .log ("[Msg Handler-IssueCmd] Context/Thread Setup Error: " ++ msg)] ++ u.1, u.2)

/-- Context-setup failure path of the issue-analysis command: the thrown
error is caught (lines 213-217) and the command marked handled. -/
def issueFail (env : Env) (c : Ctr) (chan ts msg : String) (pre : List Ev) :
    List Ev × Ctr × Bool :=
  let u := issueCatch env c chan ts msg
  (pre ++ u.1, u.2, true)

/-- Thread creation, mapping store and executor invocation of the
issue-analysis command (lines 203-212). -/
def issueCreate (env : Env) (c : Ctr) (chan tgt ts ws : String)
    (owner repo : String) (num : Nat) (up : Option String) (pre : List Ev) :
    List Ev × Ctr × Bool :=
  match env.newThreadRes ws with
  | some t =>
    if t ≠ "" then
      (pre ++ [.newThread ws, .storeMapping chan tgt ws t,
               .execIssue owner repo num up ws t], c, env.issueExecRes)
    else issueFail env c chan ts ("Failed to create thread in " ++ ws ++ ".")
      (pre ++ [.newThread ws])
  | none => issueFail env c chan ts ("Failed to create thread in " ++ ws ++ ".")
      (pre ++ [.newThread ws])

/-- Workspace determination of the issue-analysis command when no mapping
and no explicit workspace exist (lines 196-200). -/
def issueNoExplicit (env : Env) (c : Ctr) (chan tgt ts : String)
    (owner repo : String) (num : Nat) (up : Option String) (dg : List Ev) :
    List Ev × Ctr × Bool :=
  match env.resolveWs none with
  | some w =>
    if w ≠ "" then
      issueCreate env c chan tgt ts w owner repo num up (dg ++ [.resolveWs none])
    else issueFail env c chan ts
      "Could not determine target workspace for issue analysis." (dg ++ [.resolveWs none])
  | none => issueFail env c chan ts
      "Could not determine target workspace for issue analysis." (dg ++ [.resolveWs none])

/-- Issue-analysis stage (lines 175-224).  With an existing mapping the
explicit workspace wins over the mapped one but the mapped thread slug is
kept; with no mapping the explicit workspace or `determineWorkspace` picks
the workspace and a fresh thread is created and stored before the executor
runs. -/
def issueStage (cfg : Config) (env : Env) (c : Ctr) (q chan tgt ts : String) :
    List Ev × Ctr × Bool :=
  match issueMatch cfg.commandPfx q with
  | none => ([], c, false)
  | some cap =>
    let owner := cap.owner.getD cfg.githubOwner
    let repo := cap.repo.getD "backlog"
    let num := digitsToNat cap.digits
    if cap.digits = [] then
      -- `isNaN(issueNum)` (unreachable for a `\d+` capture)
      let u := updODT env c (some ts) chan (some issueFormatErrText)
      ([.log "[Msg Handler] Invalid Issue Analysis number"] ++ u.1, u.2, true)
    else
      let dg : List Ev := [.getMapping chan tgt]
      match env.mapping with
      | some m =>
        -- llmWs = explicitWs || mapping.ws ; llmThread = mapping.thread
        let llmWs :=
          match cap.wsSlug with
          | some s => if s ≠ "" then s else m.wsSlug
          | none => m.wsSlug
        if m.threadSlug ≠ "" then
          if llmWs ≠ "" then
            (dg ++ [.execIssue owner repo num cap.userPrompt llmWs m.threadSlug],
             c, env.issueExecRes)
          else issueFail env c chan ts
            "Workspace could not be determined for thread creation." dg
        else
          if llmWs ≠ "" then
            issueCreate env c chan tgt ts llmWs owner repo num cap.userPrompt dg
          else issueFail env c chan ts
            "Workspace could not be determined for thread creation." dg
      | none =>
        match cap.wsSlug with
        | some s =>
          if s ≠ "" then issueCreate env c chan tgt ts s owner repo num cap.userPrompt dg
          else issueNoExplicit env c chan tgt ts owner repo num cap.userPrompt dg
        | none => issueNoExplicit env c chan tgt ts owner repo num cap.userPrompt dg

/-- Stages two to four of the command branch (lines 152-241): the PR-review,
issue-analysis and generic-API grammars tried in priority order after the
release stage (whose result is the `s1` argument), then the unknown-command
reply when nothing was handled.  Every path through it marks the message
handled, so the fallback never runs after it. -/
def ghTail (cfg : Config) (env : Env) (s1 : List Ev × Ctr × Bool) (q chan tgt ts : String) :
    List Ev × Ctr :=
  let s2 : List Ev × Ctr × Bool :=
    if s1.2.2 then ([], s1.2.1, true) else prStage cfg env s1.2.1 q chan ts
  let s3 : List Ev × Ctr × Bool :=
    if s2.2.2 then ([], s2.2.1, true) else issueStage cfg env s2.2.1 q chan tgt ts
  let s4 : List Ev × Ctr × Bool :=
    if s3.2.2 then ([], s3.2.1, true)
    else
      match apiMatch cfg.commandPfx q with
      | some aq =>
        if aq ≠ "" then (([.execApi aq] : List Ev), s3.2.1, env.apiExecRes)
        else (([] : List Ev), s3.2.1, false)
      | none => (([] : List Ev), s3.2.1, false)
  if s4.2.2 then (s1.1 ++ s2.1 ++ s3.1 ++ s4.1, s4.2.1)
  else
    let u := updODT env s4.2.1 (some ts) chan (some unknownCmdText)
    (s1.1 ++ s2.1 ++ s3.1 ++ s4.1 ++
      [.log ("[Msg Handler] Unknown command starting with " ++ cfg.commandPfx ++ ": " ++ q)] ++
      u.1, u.2)

/-- Command branch for prefix-bearing messages (lines 137-241): the GitHub
configuration gates, then the release stage feeding `ghTail`. -/
def ghBranch (cfg : Config) (env : Env) (c : Ctr) (q chan tgt ts : String) :
    List Ev × Ctr :=
  if !cfg.githubToken then
    updODT env c (some ts) chan
      (some "❌ GitHub commands disabled (GITHUB_TOKEN not configured).")
  else if !cfg.hasOctokit then
    updODT env c (some ts) chan
      (some "❌ GitHub client failed to initialize (check token/config).")
  else
    ghTail cfg env
      (match releaseMatch cfg.commandPfx q with
       | some rid =>
         if rid ≠ "" then (([.execRelease rid] : List Ev), c, env.releaseExecRes)
         else (([] : List Ev), c, false)
       | none => (([] : List Ev), c, false))
      q chan tgt ts

/-! ### Fallback (intent → LLM) branch -/

/-- Modelled from the spec: `detectIntentAndWorkspace` lives in
`src/services` which is absent from the repository snapshot.  Spec §4.4: the
classifier is backed by an external inference call and any failure of the
underlying call is not allowed to abort the conversation — a classification
failure is treated as no intent and no suggestion.  The underlying call is
`env.classifyRaw`; the service itself therefore never throws. -/
def detectIntentAndWorkspace (env : Env) : IntentRes :=
  match env.classifyRaw with
  | .ok r => r
  | .error _ => ⟨none, 0, none⟩

/-- Intent-routing condition of line 259:
`intentRoutingEnabled && intent && confidence >= intentConfidenceThreshold`. -/
def routingTriggers (cfg : Config) (r : IntentRes) : Bool :=
  cfg.intentRoutingEnabled && truthyO r.intent &&
    decide (cfg.intentConfidenceThreshold ≤ r.confidence)

/-- Progress text the placeholder shows while the LLM query runs (line 335). -/
def brainTextOf (ws : String) : String :=
  ":brain: Thinking in workspace `" ++ ws ++ "`..."

/-- Fixed formatting instruction appended to every LLM query (line 338). -/
def llmInstruction : String :=
  "\n\nIMPORTANT: Provide a clean answer without referencing internal context markers (like \"CONTEXT N\"). Format your response using Slack markdown (bold, italics, code blocks, links)."

/-- Generic user-facing error text of the outer catch (lines 421, 424). -/
def oopsText (m : String) : String := "⚠️ Oops! An error occurred: " ++ m

/-- Notice posted for an empty LLM reply (line 351). -/
def emptyNoticeText : String :=
  "_(I received an empty response. Please try rephrasing your query.)_"

/-- Text of the feedback-button message (line 412). -/
def feedbackText : String := "Was this response helpful?"

/-- Error text for a failed workspace resolution on the LLM path (line 312). -/
def wsFailText : String :=
  "Could not determine a valid workspace. Check configuration (mappings, fallback) and LLM workspace availability."

/-- Error text for a failed thread creation on the LLM path (line 328). -/
def threadFailText (w : String) : String :=
  "Failed to create new thread in workspace " ++ w ++ ". Check LLM API status and workspace slug validity."

/-- First match of `WORKSPACE_OVERRIDE_REGEX` (the override sigil directly
followed by one or more non-whitespace characters) removed from the text
(line 337); no match leaves the text unchanged. -/
def removeOverrideL (sig : List Char) : List Char → List Char
  | [] => []
  | c :: cs =>
    if sig.isPrefixOf (c :: cs) then
      let rest := (c :: cs).drop sig.length
      let run := rest.takeWhile (fun x => !isWsC x)
      if run ≠ [] then rest.dropWhile (fun x => !isWsC x)
      else c :: removeOverrideL sig cs
    else c :: removeOverrideL sig cs

def removeOverrideS (sig s : String) : String := ⟨removeOverrideL sig.data s.data⟩

/-- Outer catch of the fallback path (lines 418-425): log, then update the
placeholder in place when it still exists, else post a fresh error message
whose own failure is swallowed with no log (`.catch(()=>{})`).  Afterwards
the placeholder variable is `null`, so the `finally` cleanup is a no-op. -/
def fallbackCatch (env : Env) (c : Ctr) (chan tgt : String) (tsOpt : Option String)
    (msg : String) : List Ev × Ctr :=
  let head : List Ev :=
    [.caught "fallbackCatch" msg,
     .log ("[Msg Handler Error - Intent/LLM Path] " ++ msg)]
  if truthyO tsOpt then
    let u := updODT env c tsOpt chan (some (oopsText msg))
    (head ++ u.1, u.2)
  else
    let pr := doPost env c chan tgt (oopsText msg) none
    match pr.2.2 with
    | .ok _ => (head ++ pr.1, pr.2.1)
    | .err _ m => (head ++ pr.1 ++ [.caught "errNoticePost" m], pr.2.1)

/-- First 200 characters with an ellipsis when longer
(`substring(0,200) + (len > 200 ? ... : )`). -/
def truncate200 (s : String) : String :=
  (⟨s.data.take 200⟩ : String) ++ (if 200 < s.data.length then "..." else "")

/-- Rendered message text of one segment (lines 374-383): trimmed prose, or
a fenced code block; empty (skipped) when the segment has no content after
trimming. -/
def segmentText (seg : Segment) : String :=
  match seg.kind with
  | .text => trimS seg.content
  | .code =>
    if trimS seg.content ≠ "" then
      "```" ++ seg.language.getD "" ++ "\n" ++ trimS seg.content ++ "\n```"
    else ""

/-- Plain-text fallback of one segment post (lines 375-382). -/
def segmentFallback (seg : Segment) : String :=
  match seg.kind with
  | .text => truncate200 (trimS seg.content)
  | .code =>
    "Code block (" ++
      (let l := seg.language.getD ""
       if l = "" then "unknown" else l) ++ ")"

/-- Retry-post catch inside the segment loop (line 394, `catch (e2)`): the
retry failure is ignored with no log. -/
def segRetryCatch (msg : String) : List Ev := [.caught "segRetry" msg]

/-- Catch of one segment post (lines 392-395): the error is logged before
the block-less retry. -/
def segPostCatch (msg : String) : List Ev :=
  [.caught "segPost" msg, .log ("[Msg Handler] Error posting segment: " ++ msg)]

/-- Catch of the feedback-button post (line 413): best effort, logged. -/
def feedbackCatch (msg : String) : List Ev :=
  [.caught "feedbackPost" msg,
   .log ("[Msg Handler] Failed post feedback buttons: " ++ msg)]

/-- Segment posting loop (lines 371-397): post each nonempty segment (rich
block when available, raw text otherwise), catching post errors per segment
with one block-less retry, and sleeping 500 ms between consecutive segments.
Returns the delta, the counters and the final `lastMessageTs`. -/
def segLoop (env : Env) (chan tgt : String) (total : Nat) :
    List Segment → Nat → Ctr → Option String → List Ev × Ctr × Option String
  | [], _, c, lastTs => ([], c, lastTs)
  | seg :: rest, i, c, lastTs =>
    let txt := segmentText seg
    if txt = "" then segLoop env chan tgt total rest (i + 1) c lastTs
    else
      let hasBlock := env.mdBlockOk txt
      let warnD : List Ev :=
        if hasBlock then [] else [.log "[Msg Handler] Failed block for segment. Posting raw."]
      let pr :=
        doPost env c chan tgt (if hasBlock then segmentFallback seg else txt)
          (if hasBlock then some txt else none)
      let step : List Ev × Ctr × Option String :=
        match pr.2.2 with
        | .ok ts => (([] : List Ev), pr.2.1, ts)
        | .err _ m =>
          let head : List Ev := segPostCatch m
          if hasBlock then
            let pr2 := doPost env pr.2.1 chan tgt txt none
            match pr2.2.2 with
            | .ok ts2 => (head ++ pr2.1, pr2.2.1, ts2)
            | .err _ m2 => (head ++ pr2.1 ++ segRetryCatch m2, pr2.2.1, lastTs)
          else (head, pr.2.1, lastTs)
      let dSleep : List Ev := if 1 < total && i < total - 1 then [.sleep 500] else []
      let rest' := segLoop env chan tgt total rest (i + 1) step.2.1 step.2.2
      (warnD ++ pr.1 ++ step.1 ++ dSleep ++ rest'.1, rest'.2.1, rest'.2.2)

/-- Feedback-button post with its best-effort catch (lines 401-414). -/
def feedbackPost (env : Env) (c : Ctr) (chan tgt originalTs ws : String) :
    List Ev × Ctr :=
  let pr :=
    doPost env c chan tgt feedbackText (some ("feedback_" ++ originalTs ++ "_" ++ ws))
  match pr.2.2 with
  | .ok _ => (pr.1, pr.2.1)
  | .err _ m => (pr.1 ++ feedbackCatch m, pr.2.1)

/-- Response post-processing for a non-empty trimmed reply (steps 5e-5f,
lines 353-415).  The placeholder is already deleted here, so an error thrown
by the zero-segment raw post reaches the outer catch with no placeholder
left; segment-loop and feedback errors are caught locally. -/
def processReply (cfg : Config) (env : Env) (c : Ctr)
    (chan tgt originalTs ws trimmed : String) : List Ev × Ctr :=
  let substantive := cfg.minSubstantive ≤ trimmed.length
  let segs := env.segmentsOf trimmed
  if segs.isEmpty then
    let warnD : List Ev :=
      [.log "[Msg Handler] No segments extracted from non-empty reply, posting raw trimmed reply."]
    let hasBlock := env.mdBlockOk trimmed
    let pr :=
      doPost env c chan tgt (if hasBlock then truncate200 trimmed else trimmed)
        (if hasBlock then some trimmed else none)
    match pr.2.2 with
    | .ok ts =>
      if truthyO ts && substantive then
        let f := feedbackPost env pr.2.1 chan tgt originalTs ws
        (warnD ++ pr.1 ++ f.1, f.2)
      else (warnD ++ pr.1, pr.2.1)
    | .err _ m =>
      let fc := fallbackCatch env pr.2.1 chan tgt none m
      (warnD ++ pr.1 ++ fc.1, fc.2)
  else
    let sl := segLoop env chan tgt segs.length segs 0 c none
    if truthyO sl.2.2 && substantive then
      let f := feedbackPost env sl.2.1 chan tgt originalTs ws
      (sl.1 ++ f.1, f.2)
    else (sl.1, sl.2.1)

/-- Default LLM query path (steps 5c-5f, lines 302-416), entered when no
intent handler fired: resolve the workspace, reuse or create the thread
mapping, update the placeholder to the progress text, query the LLM, delete
the placeholder, then post the reply.  Every throw lands in the outer catch
(`fallbackCatch`). -/
def llmPath (cfg : Config) (env : Env) (c : Ctr)
    (q chan tgt originalTs ts0 : String) (suggested : Option String) :
    List Ev × Ctr :=
  let dResolve : List Ev := [.resolveWs suggested]
  let wOpt :=
    match env.resolveWs suggested with
    | some w => if w ≠ "" then some w else none
    | none => none
  match wOpt with
  | none =>
    let fc := fallbackCatch env c chan tgt (some ts0) wsFailText
    (dResolve ++ fc.1, fc.2)
  | some w =>
    let dMap : List Ev := [.getMapping chan tgt]
    let threadStep : List Ev × Option String :=
      match env.mapping with
      | some m =>
        if m.wsSlug = w then (([] : List Ev), some m.threadSlug)
        else
          match env.newThreadRes w with
          | some t =>
            if t ≠ "" then ([.newThread w, .storeMapping chan tgt w t], some t)
            else ([.newThread w], none)
          | none => ([.newThread w], none)
      | none =>
        match env.newThreadRes w with
        | some t =>
          if t ≠ "" then ([.newThread w, .storeMapping chan tgt w t], some t)
          else ([.newThread w], none)
        | none => ([.newThread w], none)
    match threadStep.2 with
    | none =>
      let fc := fallbackCatch env c chan tgt (some ts0) (threadFailText w)
      (dResolve ++ dMap ++ threadStep.1 ++ fc.1, fc.2)
    | some th =>
      let uB := updODT env c (some ts0) chan (some (brainTextOf w))
      let input := trimS (removeOverrideS cfg.wsOverrideSigil q) ++ llmInstruction
      let dQ : List Ev := [.queryLlm w th input]
      match env.queryRes with
      | .error m =>
        let fc := fallbackCatch env uB.2 chan tgt (some ts0) m
        (dResolve ++ dMap ++ threadStep.1 ++ uB.1 ++ dQ ++ fc.1, fc.2)
      | .ok raw =>
        let trimmed := match raw with | some s => trimS s | none => ""
        let uD := updODT env uB.2 (some ts0) chan none
        if trimmed = "" then
          let pr := doPost env uD.2 chan tgt emptyNoticeText none
          match pr.2.2 with
          | .ok _ => (dResolve ++ dMap ++ threadStep.1 ++ uB.1 ++ dQ ++ uD.1 ++ pr.1, pr.2.1)
          | .err _ m =>
            let fc := fallbackCatch env pr.2.1 chan tgt none m
            (dResolve ++ dMap ++ threadStep.1 ++ uB.1 ++ dQ ++ uD.1 ++ pr.1 ++ fc.1, fc.2)
        else
          let prc := processReply cfg env uD.2 chan tgt originalTs w trimmed
          (dResolve ++ dMap ++ threadStep.1 ++ uB.1 ++ dQ ++ uD.1 ++ prc.1, prc.2)

/-- Fallback (non-command) branch of the handler (step 5, lines 244-432):
intent detection, then — when the routing condition fires — the
`ReferenceError` thrown by the undeclared `intentResult` read on line 266
(which makes the intent switch and its stub replies unreachable), otherwise
the LLM path.  The `finally` cleanup (lines 428-430) is a no-op on every
path: the catch clears the placeholder variable and the LLM path clears it
right after the post-query deletion. -/
def fallback (cfg : Config) (env : Env) (c : Ctr)
    (q chan tgt originalTs ts0 : String) : List Ev × Ctr :=
  let dC : List Ev := [.classify q]
  let r := detectIntentAndWorkspace env
  if routingTriggers cfg r then
    let fc := fallbackCatch env c chan tgt (some ts0) "intentResult is not defined"
    (dC ++ fc.1, fc.2)
  else
    let lp := llmPath cfg env c q chan tgt originalTs ts0 r.suggestedWorkspace
    (dC ++ lp.1, lp.2)

/-! ### Top level -/

/-- Reply target: `threadTs || originalTs` (line 105). -/
def replyTargetOf (ev : SlackEvent) : String :=
  match ev.threadTs with
  | some t => if t ≠ "" then t else ev.ts
  | none => ev.ts

/-- Cleaned query (lines 101-104): raw text trimmed, first occurrence of the
bot mention removed, trimmed again. -/
def cleanedQueryOf (cfg : Config) (ev : SlackEvent) : String :=
  trimS (removeFirstS ("<@" ++ cfg.botUserId ++ ">") (trimS ev.text))

/-- `isPotentialGhCommand` (line 135): the lower-cased cleaned query begins
with the raw configured command prefix. -/
def isPotentialGh (cfg : Config) (q : String) : Bool :=
  startsWithS (lowerS q) cfg.commandPfx

/-- Catch of the initial thinking-message post (lines 128-131): log and
return without posting further. -/
def thinkingCatch (msg : String) : List Ev :=
  [.caught "thinkingPost" msg,
   .log ("[Msg Handler] Failed post initial thinking message: " ++ msg)]

/-- Shallow embedding of `handleSlackMessageEventInternal` (lines 96-436):
the full effect trace of one invocation.  Plain `console.log` progress lines
are not recorded; `console.warn` and `console.error` calls are recorded as
`Ev.log` events, and entry into each catch block as an `Ev.caught` event. -/
def run (cfg : Config) (env : Env) (ev : SlackEvent) : List Ev :=
  let q := cleanedQueryOf cfg ev
  let chan := ev.channel
  let tgt := replyTargetOf ev
  if q = "" then []
  else if startsWithS (lowerS q) "#delete_last_message" then [.runDeleteLast chan tgt]
  else
    let c0 : Ctr := ⟨0, 0, 0⟩
    let pr := doPost env c0 chan tgt ":hourglass_flowing_sand: Processing..." none
    match pr.2.2 with
    | .err _ m => pr.1 ++ thinkingCatch m
    | .ok tsRes =>
      match tsRes with
      | none => pr.1 ++ thinkingCatch "Failed to get timestamp from thinking message response."
      | some ts0 =>
        if ts0 = "" then
          pr.1 ++ thinkingCatch "Failed to get timestamp from thinking message response."
        else if isPotentialGh cfg q then
          pr.1 ++ (ghBranch cfg env pr.2.1 q chan tgt ts0).1
        else
          pr.1 ++ (fallback cfg env pr.2.1 q chan tgt ev.ts ts0).1

/-! ### Trace observations -/

/-- Is the event an LLM query call? -/
def isQueryEv : Ev → Bool
  | .queryLlm _ _ _ => true
  | _ => false

/-- Is the event an LLM thread creation call? -/
def isNewThreadEv : Ev → Bool
  | .newThread _ => true
  | _ => false

/-- Is the event a thread-mapping write? -/
def isStoreEv : Ev → Bool
  | .storeMapping _ _ _ _ => true
  | _ => false

/-- Is the event a log line? -/
def isLogEv : Ev → Bool
  | .log _ => true
  | _ => false

/-- Is the event entry into a catch block? -/
def isCaughtEv : Ev → Bool
  | .caught _ _ => true
  | _ => false

/-- Is the event a `chat.postMessage` attempt? -/
def isPostEv : Ev → Bool
  | .post _ _ _ _ => true
  | _ => false

/-- Is the event the feedback-button post? -/
def isFeedbackEv : Ev → Bool
  | .post _ _ t _ => t = feedbackText
  | _ => false

/-- Is the event a command-executor invocation? -/
def isExecEv : Ev → Bool
  | .execRelease _ => true
  | .execPrReview _ _ _ _ => true
  | .execIssue _ _ _ _ _ _ => true
  | .execApi _ => true
  | _ => false

/-- Is the event an update of or a delete of the placeholder message `ts`? -/
def isPlacEv (ts : String) : Ev → Bool
  | .update _ t _ => t = ts
  | .del _ t => t = ts
  | _ => false

/-- Is the event the progress ("thinking") update of placeholder `ts`? -/
def isBrainUpd (ts : String) : Ev → Bool
  | .update _ t txt => t = ts && startsWithS txt ":brain: Thinking in workspace"
  | _ => false

/-- The placeholder is released exactly once: its update/delete events are an
optional progress update followed by exactly one final update or delete, and
nothing after that. -/
def releasedOnce (ts : String) (l : List Ev) : Bool :=
  match l.filter (isPlacEv ts) with
  | [e] => !isBrainUpd ts e
  | [e1, e2] => isBrainUpd ts e1 && !isBrainUpd ts e2
  | _ => false

/-- Is the event an update of `ts` to the unknown-command reply? -/
def isUnknownUpd (ts : String) : Ev → Bool
  | .update _ t txt => t = ts && txt = unknownCmdText
  | _ => false

/-- Is the event specifically an issue-analysis executor invocation? -/
def isExecIssueEv : Ev → Bool
  | .execIssue _ _ _ _ _ _ => true
  | _ => false

/-- Conversation-context event: thread creation, mapping write or LLM
query. -/
def ctxP (e : Ev) : Bool := isNewThreadEv e || isStoreEv e || isQueryEv e

/-- Constructor index of an event, used to characterize which event shapes a
code region can emit. -/
def evKind : Ev → Nat
  | .log _ => 0
  | .post _ _ _ _ => 1
  | .update _ _ _ => 2
  | .del _ _ => 3
  | .caught _ _ => 4
  | .runDeleteLast _ _ => 5
  | .execRelease _ => 6
  | .execPrReview _ _ _ _ => 7
  | .execIssue _ _ _ _ _ _ => 8
  | .execApi _ => 9
  | .classify _ => 10
  | .resolveWs _ => 11
  | .getMapping _ _ => 12
  | .newThread _ => 13
  | .storeMapping _ _ _ _ => 14
  | .queryLlm _ _ _ => 15
  | .sleep _ => 16

/-- Is the event an entry into the outer conversation-level catch (the one
that converts an error into a user-facing failure reply)? -/
def isFallbackCaught : Ev → Bool
  | .caught s _ => s == "fallbackCatch"
  | _ => false

/-- Is the event a post whose payload carries `txt` (as rich-block source or
as raw text)? -/
def isReplyPostOf (txt : String) : Ev → Bool
  | .post _ _ t b => b == some txt || t == txt
  | _ => false

/-- Every `chat.postMessage` call in this environment succeeds. -/
def postsOk (env : Env) : Prop := ∀ n, ∃ u, env.postRes n = .ok u

/-- Every `chat.postMessage` call succeeds and returns a truthy timestamp. -/
def postsTruthy (env : Env) : Prop :=
  ∀ n, ∃ u, env.postRes n = .ok (some u) ∧ u ≠ ""

/-! ### Concrete fixtures used by witnesses and counterexamples -/

/-- Concrete configuration: prefix `gh>`, override sigil `$`, GitHub
configured, intent routing off, substantive threshold 5. -/
def cfgA : Config :=
  ⟨"U1", "gh>", "$", true, true, false, 1, 5, "gravityforms", "github-api", "formatter"⟩

/-- Concrete configuration whose command prefix overlaps the delete-command
literal, to exercise dispatch order. -/
def cfgD : Config :=
  { cfgA with commandPfx := "#del" }

/-- Concrete benign environment: every chat call succeeds with timestamp
`T1`, classifier finds nothing, workspace resolves to `wsA`, no stored
mapping, fresh threads get slug `th1`, the LLM replies with a fixed string,
every executor reports handled, segmentation yields one text segment. -/
def envA : Env where
  postRes := fun _ => .ok (some "T1")
  updateRes := fun _ => .ok none
  deleteRes := fun _ => .ok none
  classifyRaw := .ok ⟨none, 0, none⟩
  resolveWs := fun _ => some "wsA"
  mapping := none
  newThreadRes := fun _ => some "th1"
  queryRes := .ok (some "hello world reply")
  releaseExecRes := true
  prExecRes := true
  issueExecRes := true
  apiExecRes := true
  segmentsOf := fun s => [⟨.text, s, none⟩]
  mdBlockOk := fun _ => true

/-- Concrete inbound event in channel `C1` with message timestamp
`111.22`. -/
def evOf (text : String) : SlackEvent := ⟨"u7", text, "C1", "111.22", none⟩

/-- Environment with a stored mapping in the workspace the resolver also
picks (`wsA`). -/
def envC3 : Env := { envA with mapping := some ⟨"wsA", "th9"⟩ }

/-- Environment with a stored mapping in workspace `w1`, different from both
the resolver result (`wsA`) and any explicit command workspace. -/
def envC2 : Env := { envA with mapping := some ⟨"w1", "t1"⟩ }

/-- Environment whose LLM reply has length exactly equal to the configured
substantive threshold of `cfgA` (5). -/
def envC6 : Env := { envA with queryRes := .ok (some "12345") }

/-- Environment in which every `chat.delete` call fails with the Slack error
kind `message_not_found`. -/
def envC9 : Env :=
  { envA with deleteRes := fun _ => .err "message_not_found" "message not found" }

/-! ### Shape lemmas: which event kinds each code region can emit -/

theorem filter_eq_nil_of_kinds {l : List Ev} {ks : List Nat} {p : Ev → Bool}
    (hl : ∀ e ∈ l, evKind e ∈ ks) (hp : ∀ e, evKind e ∈ ks → p e = false) :
    l.filter p = [] := by
  rw [List.filter_eq_nil_iff]
  intro e he
  simp [hp e (hl e he)]

theorem updODTCatch_kind (b : Bool) (k m : String) :
    ∀ e ∈ updODTCatch b k m, evKind e ∈ ([0, 4] : List Nat) := by
  intro e he
  unfold updODTCatch at he
  rcases List.mem_append.mp he with h | h
  · simp_all [evKind]
  · split at h <;> simp_all [evKind]

theorem updODT_kind (env : Env) (c : Ctr) (ts : Option String) (chan : String)
    (u : Option String) :
    ∀ e ∈ (updODT env c ts chan u).1, evKind e ∈ ([0, 2, 3, 4] : List Nat) := by
  intro e he
  unfold updODT at he
  split at he
  · simp at he
  split at he
  · simp_all [evKind]
  split at he
  · simp at he
  rename_i ts'
  split at he
  · split at he
    · simp_all [evKind]
    · rcases List.mem_append.mp he with h | h
      · simp_all [evKind]
      · have := updODTCatch_kind true _ _ e h
        simp at this
        rcases this with h' | h' <;> simp [h']
  · split at he
    · simp_all [evKind]
    · rcases List.mem_append.mp he with h | h
      · simp_all [evKind]
      · have := updODTCatch_kind false _ _ e h
        simp at this
        rcases this with h' | h' <;> simp [h']

theorem doPost_fst (env : Env) (c : Ctr) (chan tgt t : String) (b : Option String) :
    (doPost env c chan tgt t b).1 = [.post chan tgt t b] := rfl

theorem doPost_res (env : Env) (c : Ctr) (chan tgt t : String) (b : Option String) :
    (doPost env c chan tgt t b).2.2 = env.postRes c.post := rfl

theorem doPost_ctr (env : Env) (c : Ctr) (chan tgt t : String) (b : Option String) :
    (doPost env c chan tgt t b).2.1 = { c with post := c.post + 1 } := rfl

theorem fallbackCatch_kind (env : Env) (c : Ctr) (chan tgt : String)
    (ts : Option String) (m : String) :
    ∀ e ∈ (fallbackCatch env c chan tgt ts m).1,
      evKind e ∈ ([0, 1, 2, 3, 4] : List Nat) := by
  intro e he
  unfold fallbackCatch at he
  split at he
  · rcases List.mem_append.mp he with h | h
    · simp only [List.mem_cons, List.not_mem_nil, or_false] at h
      rcases h with h | h <;> subst h <;> simp [evKind]
    · have := updODT_kind env c ts chan _ e h
      simp at this
      rcases this with h' | h' | h' | h' <;> simp [h']
  · simp only [doPost_fst, doPost_res, doPost_ctr] at he
    rcases hr : env.postRes c.post with tsv | ⟨k, mv⟩ <;>
      simp only [hr, List.append_assoc, List.cons_append, List.nil_append,
        List.mem_cons, List.not_mem_nil, or_false] at he
    · rcases he with h | h | h <;> subst h <;> simp [evKind]
    · rcases he with h | h | h | h <;> subst h <;> simp [evKind]

theorem fallbackCatchNone_kind (env : Env) (c : Ctr) (chan tgt m : String) :
    ∀ e ∈ (fallbackCatch env c chan tgt none m).1,
      evKind e ∈ ([0, 1, 4] : List Nat) := by
  intro e he
  unfold fallbackCatch at he
  simp only [truthyO, Bool.false_eq_true, if_false,
    doPost_fst, doPost_res, doPost_ctr] at he
  rcases hr : env.postRes c.post with tsv | ⟨k, mv⟩ <;>
    simp only [hr, List.append_assoc, List.cons_append, List.nil_append,
      List.mem_cons, List.not_mem_nil, or_false] at he
  · rcases he with h | h | h <;> subst h <;> simp [evKind]
  · rcases he with h | h | h | h <;> subst h <;> simp [evKind]

theorem issueCatch_kind (env : Env) (c : Ctr) (chan ts m : String) :
    ∀ e ∈ (issueCatch env c chan ts m).1, evKind e ∈ ([0, 2, 3, 4] : List Nat) := by
  intro e he
  unfold issueCatch at he
  rcases List.mem_append.mp he with h | h
  · simp only [List.mem_cons, List.not_mem_nil, or_false] at h
    rcases h with h | h <;> subst h <;> simp [evKind]
  · have := updODT_kind env c (some ts) chan _ e h
    simp at this
    rcases this with h' | h' | h' | h' <;> simp [h']

theorem feedbackPost_kind (env : Env) (c : Ctr) (chan tgt ots ws : String) :
    ∀ e ∈ (feedbackPost env c chan tgt ots ws).1,
      evKind e ∈ ([0, 1, 4] : List Nat) := by
  intro e he
  unfold feedbackPost at he
  simp only [doPost_fst, doPost_res, doPost_ctr, feedbackCatch] at he
  rcases hr : env.postRes c.post with tsv | ⟨k, mv⟩ <;>
    simp only [hr, List.append_assoc, List.cons_append, List.nil_append,
      List.mem_cons, List.not_mem_nil, or_false] at he
  · subst he; simp [evKind]
  · rcases he with h | h | h <;> subst h <;> simp [evKind]

theorem segLoop_kind (env : Env) (chan tgt : String) (total : Nat) :
    ∀ segs i c last, ∀ e ∈ (segLoop env chan tgt total segs i c last).1,
      evKind e ∈ ([0, 1, 4, 16] : List Nat) := by
  intro segs
  induction segs with
  | nil => intro i c last e he; simp [segLoop] at he
  | cons s rest ih =>
    intro i c last e he
    by_cases hts : segmentText s = ""
    · simp only [segLoop] at he
      rw [if_pos hts] at he
      exact ih _ _ _ e he
    · simp only [segLoop, if_neg hts, doPost_fst, doPost_res, doPost_ctr,
        List.mem_append] at he
      rcases he with (((hw | hp) | hq) | hs) | hr
      · split at hw <;> simp_all [evKind]
      · simp only [List.mem_cons, List.not_mem_nil, or_false] at hp
        subst hp; simp [evKind]
      · rcases hr2 : env.postRes c.post with tsv | ⟨k, mv⟩ <;>
          simp only [hr2] at hq
        · simp at hq
        · split at hq
          · rcases hr3 : env.postRes (c.post + 1) with tsv2 | ⟨k2, mv2⟩ <;>
              simp only [hr3, segRetryCatch, segPostCatch, List.append_assoc, List.cons_append,
                List.nil_append, List.mem_cons, List.not_mem_nil, or_false] at hq
            · rcases hq with h | h | h <;> subst h <;> simp [evKind]
            · rcases hq with h | h | h | h <;> subst h <;> simp [evKind]
          · simp only [segPostCatch, List.mem_cons, List.not_mem_nil, or_false] at hq
            rcases hq with h | h <;> subst h <;> simp [evKind]
      · split at hs <;> simp_all [evKind]
      · exact ih _ _ _ e hr

theorem processReply_kind (cfg : Config) (env : Env) (c : Ctr)
    (chan tgt ots ws tr : String) :
    ∀ e ∈ (processReply cfg env c chan tgt ots ws tr).1,
      evKind e ∈ ([0, 1, 4, 16] : List Nat) := by
  intro e he
  by_cases hseg : (env.segmentsOf tr).isEmpty
  · simp only [processReply, hseg, if_true, doPost_fst, doPost_res, doPost_ctr] at he
    rcases hr : env.postRes c.post with tsv | ⟨k, mv⟩ <;> simp only [hr] at he
    · split at he <;>
        simp only [List.mem_append] at he
      · rcases he with (hw | hp) | hf
        · simp_all [evKind]
        · simp only [List.mem_cons, List.not_mem_nil, or_false] at hp
          subst hp; simp [evKind]
        · have := feedbackPost_kind env _ chan tgt ots ws e hf
          simp at this
          rcases this with h | h | h <;> simp [h]
      · rcases he with hw | hp
        · simp_all [evKind]
        · simp only [List.mem_cons, List.not_mem_nil, or_false] at hp
          subst hp; simp [evKind]
    · simp only [List.mem_append] at he
      rcases he with (hw | hp) | hc
      · simp_all [evKind]
      · simp only [List.mem_cons, List.not_mem_nil, or_false] at hp
        subst hp; simp [evKind]
      · have := fallbackCatchNone_kind env _ chan tgt mv e hc
        simp at this
        rcases this with h | h | h <;> simp [h]
  · simp only [processReply, hseg, if_false, Bool.false_eq_true] at he
    split at he
    · simp only [List.mem_append] at he
      rcases he with hl | hf
      · exact segLoop_kind env chan tgt _ _ _ _ _ e hl
      · have := feedbackPost_kind env _ chan tgt ots ws e hf
        simp at this
        rcases this with h | h | h <;> simp [h]
    · exact segLoop_kind env chan tgt _ _ _ _ _ e he

/-! ### Parser lemmas: capture invariants and grammar disjointness -/

theorem litCI_cons_some {a : Char} {ps r x : List Char}
    (h : litCI (a :: ps) r = some x) :
    ∃ c cs, r = c :: cs ∧ lcC a = lcC c ∧ litCI ps cs = some x := by
  cases r with
  | nil => simp [litCI] at h
  | cons c cs =>
    unfold litCI at h
    split at h
    · exact ⟨c, cs, rfl, by assumption, h⟩
    · cases h

theorem litCI_head_ne {a b : Char} {ps qs r : List Char} (hab : lcC a ≠ lcC b)
    (h : ∃ x, litCI (a :: ps) r = some x) : litCI (b :: qs) r = none := by
  obtain ⟨x, hx⟩ := h
  obtain ⟨c, cs, rfl, hac, hrest⟩ := litCI_cons_some hx
  unfold litCI
  rw [if_neg]
  intro hbc
  exact hab (by rw [hac, hbc])

theorem dropWhile_head_false (p : Char → Bool) :
    ∀ (l : List Char) (c : Char) (cs : List Char),
      l.dropWhile p = c :: cs → p c = false := by
  intro l
  induction l with
  | nil => intro c cs h; simp [List.dropWhile] at h
  | cons a as ih =>
    intro c cs h
    rw [List.dropWhile_cons] at h
    split at h
    · exact ih c cs h
    · cases h
      simp_all

theorem takeWhile_cons_ne_nil {p : Char → Bool} {c : Char} {cs : List Char}
    (h : p c = true) : (c :: cs).takeWhile p ≠ [] := by
  simp [List.takeWhile_cons, h]

theorem lineTerm_isWs {c : Char} (h : isLineTermC c = true) : isWsC c = true := by
  simp [isLineTermC] at h
  rcases h with h | h <;> simp [isWsC, h]

theorem promptTail_capture_ne {r : List Char} {p : String}
    (h : promptTail r = some (some p)) : p ≠ "" := by
  unfold promptTail at h
  by_cases hr1 : List.dropWhile isWsC r = []
  · rw [if_neg (by simp [hr1])] at h
    rcases hmax : (List.range r.length).filter
        (fun i => decide (1 ≤ i) && !isLineTermC (r.getD i ' ')) |>.max? with _ | k
    · rw [hmax] at h
      simp at h
    · rw [hmax] at h
      cases h
      have hkmem := List.max?_mem (by intro a b; exact max_choice a b) hmax
      rw [List.mem_filter] at hkmem
      obtain ⟨hkrange, hkpred⟩ := hkmem
      rw [List.mem_range] at hkrange
      simp only [Bool.and_eq_true, decide_eq_true_eq] at hkpred
      have hdrop : r.drop k = r[k] :: r.drop (k + 1) :=
        List.drop_eq_getElem_cons hkrange
      have hget : r.getD k ' ' = r[k] := List.getD_eq_getElem r ' ' hkrange
      rw [hdrop]
      intro hcon
      have hnil : (r[k] :: r.drop (k + 1)).takeWhile (fun x => !isLineTermC x) = [] := by
        have := congrArg String.data hcon
        simpa using this
      rw [List.takeWhile_cons] at hnil
      rw [hget] at hkpred
      simp [hkpred.2] at hnil
  · rw [if_pos hr1] at h
    by_cases hw : List.takeWhile isWsC r = []
    · rw [if_pos hw] at h; cases h
    · rw [if_neg hw] at h
      simp only [] at h
      by_cases hall : (List.dropWhile (fun c => !isLineTermC c)
          (List.dropWhile isWsC r)).all isWsC = true
      · rw [if_pos hall] at h
        cases h
        match hd : r.dropWhile isWsC, hr1 with
        | c :: cs, _ =>
          have hpc : isWsC c = false := dropWhile_head_false isWsC r c cs hd
          have hlt : isLineTermC c = false := by
            cases hlt : isLineTermC c
            · rfl
            · rw [lineTerm_isWs hlt] at hpc; cases hpc
          intro hcon
          have hnil : (c :: cs).takeWhile (fun x => !isLineTermC x) = [] := by
            have := congrArg String.data hcon
            simpa using this
          rw [List.takeWhile_cons, hlt] at hnil
          simp at hnil
      · rw [if_neg hall] at h
        cases h

theorem litCI_release_not_review {r x : List Char}
    (h : litCI "release".data r = some x) : litCI "review".data r = none := by
  have h' : litCI ('r' :: 'e' :: 'l' :: 'e' :: 'a' :: 's' :: 'e' :: []) r = some x := h
  obtain ⟨c1, cs1, rfl, e1, h1⟩ := litCI_cons_some h'
  obtain ⟨c2, cs2, rfl, e2, h2⟩ := litCI_cons_some h1
  obtain ⟨c3, cs3, rfl, e3, h3⟩ := litCI_cons_some h2
  show litCI ('r' :: 'e' :: 'v' :: 'i' :: 'e' :: 'w' :: []) (c1 :: c2 :: c3 :: cs3) = none
  unfold litCI
  rw [if_pos e1]
  unfold litCI
  rw [if_pos e2]
  unfold litCI
  rw [if_neg]
  intro hv
  have : lcC 'v' = lcC 'l' := by rw [hv, ← e3]
  exact absurd this (by decide)

theorem litCI_analyze_not_api {r x : List Char}
    (h : litCI "analyze".data r = some x) : litCI "api".data r = none := by
  have h' : litCI ('a' :: 'n' :: 'a' :: 'l' :: 'y' :: 'z' :: 'e' :: []) r = some x := h
  obtain ⟨c1, cs1, rfl, e1, h1⟩ := litCI_cons_some h'
  obtain ⟨c2, cs2, rfl, e2, h2⟩ := litCI_cons_some h1
  show litCI ('a' :: 'p' :: 'i' :: []) (c1 :: c2 :: cs2) = none
  unfold litCI
  rw [if_pos e1]
  unfold litCI
  rw [if_neg]
  intro hv
  have : lcC 'p' = lcC 'n' := by rw [hv, ← e2]
  exact absurd this (by decide)

theorem releaseMatch_kw {pfx q : String} {r : String}
    (h : releaseMatch pfx q = some r) :
    ∃ r0 x, litCI pfx.data q.data = some r0 ∧
      litCI "release".data (r0.dropWhile isWsC) = some x := by
  rcases h0 : litCI pfx.data q.data with _ | r0
  · simp [releaseMatch, h0] at h
  · rcases hkw : litCI "release".data (r0.dropWhile isWsC) with _ | x
    · simp [releaseMatch, h0, hkw] at h
    · exact ⟨r0, x, rfl, hkw⟩

theorem prMatch_kw {pfx q : String} {cap : PrCap}
    (h : prMatch pfx q = some cap) :
    ∃ r0 x, litCI pfx.data q.data = some r0 ∧
      litCI "review".data (r0.dropWhile isWsC) = some x := by
  rcases h0 : litCI pfx.data q.data with _ | r0
  · simp [prMatch, h0] at h
  · rcases hkw : litCI "review".data (r0.dropWhile isWsC) with _ | x
    · simp [prMatch, h0, hkw] at h
    · exact ⟨r0, x, rfl, hkw⟩

theorem issueMatch_kw {pfx q : String} {cap : IssueCap}
    (h : issueMatch pfx q = some cap) :
    ∃ r0, litCI pfx.data q.data = some r0 ∧
      ((∃ x, litCI "analyze".data (r0.dropWhile isWsC) = some x) ∨
       (∃ x, litCI "summarize".data (r0.dropWhile isWsC) = some x) ∨
       (∃ x, litCI "explain".data (r0.dropWhile isWsC) = some x)) := by
  rcases h0 : litCI pfx.data q.data with _ | r0
  · simp [issueMatch, h0] at h
  · refine ⟨r0, rfl, ?_⟩
    rcases ha : litCI "analyze".data (r0.dropWhile isWsC) with _ | x
    · rcases hs : litCI "summarize".data (r0.dropWhile isWsC) with _ | x
      · rcases he : litCI "explain".data (r0.dropWhile isWsC) with _ | x
        · simp [issueMatch, h0, ha, hs, he] at h
        · exact Or.inr (Or.inr ⟨x, rfl⟩)
      · exact Or.inr (Or.inl ⟨x, rfl⟩)
    · exact Or.inl ⟨x, rfl⟩

theorem apiMatch_kw {pfx q : String} {a : String}
    (h : apiMatch pfx q = some a) :
    ∃ r0 x, litCI pfx.data q.data = some r0 ∧
      litCI "api".data (r0.dropWhile isWsC) = some x := by
  rcases h0 : litCI pfx.data q.data with _ | r0
  · simp [apiMatch, h0] at h
  · rcases hkw : litCI "api".data (r0.dropWhile isWsC) with _ | x
    · simp [apiMatch, h0, hkw] at h
    · exact ⟨r0, x, rfl, hkw⟩

theorem prMatch_none_of_kw {pfx q : String} {r0 : List Char}
    (h0 : litCI pfx.data q.data = some r0)
    (hkw : litCI "review".data (r0.dropWhile isWsC) = none) :
    prMatch pfx q = none := by
  simp [prMatch, h0, hkw]

theorem issueMatch_none_of_kw {pfx q : String} {r0 : List Char}
    (h0 : litCI pfx.data q.data = some r0)
    (ha : litCI "analyze".data (r0.dropWhile isWsC) = none)
    (hs : litCI "summarize".data (r0.dropWhile isWsC) = none)
    (he : litCI "explain".data (r0.dropWhile isWsC) = none) :
    issueMatch pfx q = none := by
  simp [issueMatch, h0, ha, hs, he]

theorem apiMatch_none_of_kw {pfx q : String} {r0 : List Char}
    (h0 : litCI pfx.data q.data = some r0)
    (hkw : litCI "api".data (r0.dropWhile isWsC) = none) :
    apiMatch pfx q = none := by
  simp [apiMatch, h0, hkw]

/-- A message matching the release grammar matches none of the later
grammars: the four keywords are pairwise incompatible literals at the same
position. -/
theorem releaseMatch_disjoint {pfx q : String} {r : String}
    (h : releaseMatch pfx q = some r) :
    prMatch pfx q = none ∧ issueMatch pfx q = none ∧ apiMatch pfx q = none := by
  obtain ⟨r0, x, h0, hkw⟩ := releaseMatch_kw h
  refine ⟨prMatch_none_of_kw h0 (litCI_release_not_review hkw),
    issueMatch_none_of_kw h0 ?_ ?_ ?_, apiMatch_none_of_kw h0 ?_⟩
  · exact litCI_head_ne (a := 'r') (b := 'a') (by decide) ⟨x, hkw⟩
  · exact litCI_head_ne (a := 'r') (b := 's') (by decide) ⟨x, hkw⟩
  · exact litCI_head_ne (a := 'r') (b := 'e') (by decide) ⟨x, hkw⟩
  · exact litCI_head_ne (a := 'r') (b := 'a') (by decide) ⟨x, hkw⟩

/-- A message matching the PR-review grammar matches neither the
issue-analysis nor the generic-API grammar. -/
theorem prMatch_disjoint {pfx q : String} {cap : PrCap}
    (h : prMatch pfx q = some cap) :
    issueMatch pfx q = none ∧ apiMatch pfx q = none := by
  obtain ⟨r0, x, h0, hkw⟩ := prMatch_kw h
  refine ⟨issueMatch_none_of_kw h0 ?_ ?_ ?_, apiMatch_none_of_kw h0 ?_⟩
  · exact litCI_head_ne (a := 'r') (b := 'a') (by decide) ⟨x, hkw⟩
  · exact litCI_head_ne (a := 'r') (b := 's') (by decide) ⟨x, hkw⟩
  · exact litCI_head_ne (a := 'r') (b := 'e') (by decide) ⟨x, hkw⟩
  · exact litCI_head_ne (a := 'r') (b := 'a') (by decide) ⟨x, hkw⟩

/-- A message matching the issue-analysis grammar does not match the
generic-API grammar. -/
theorem issueMatch_disjoint {pfx q : String} {cap : IssueCap}
    (h : issueMatch pfx q = some cap) : apiMatch pfx q = none := by
  obtain ⟨r0, h0, hkw⟩ := issueMatch_kw h
  rcases hkw with ⟨x, hx⟩ | ⟨x, hx⟩ | ⟨x, hx⟩
  · exact apiMatch_none_of_kw h0 (litCI_analyze_not_api hx)
  · exact apiMatch_none_of_kw h0 (litCI_head_ne (a := 's') (b := 'a') (by decide) ⟨x, hx⟩)
  · exact apiMatch_none_of_kw h0 (litCI_head_ne (a := 'e') (b := 'a') (by decide) ⟨x, hx⟩)

theorem updODT_ctx (env : Env) (c : Ctr) (ts : Option String) (chan : String)
    (u : Option String) : (updODT env c ts chan u).1.filter ctxP = [] := by
  refine filter_eq_nil_of_kinds (updODT_kind env c ts chan u) ?_
  intro e he
  cases e <;> simp_all [evKind, ctxP, isNewThreadEv, isStoreEv, isQueryEv]

theorem fallbackCatch_ctx (env : Env) (c : Ctr) (chan tgt : String)
    (ts : Option String) (m : String) :
    (fallbackCatch env c chan tgt ts m).1.filter ctxP = [] := by
  refine filter_eq_nil_of_kinds (fallbackCatch_kind env c chan tgt ts m) ?_
  intro e he
  cases e <;> simp_all [evKind, ctxP, isNewThreadEv, isStoreEv, isQueryEv]

theorem processReply_ctx (cfg : Config) (env : Env) (c : Ctr)
    (chan tgt ots ws tr : String) :
    (processReply cfg env c chan tgt ots ws tr).1.filter ctxP = [] := by
  refine filter_eq_nil_of_kinds (processReply_kind cfg env c chan tgt ots ws tr) ?_
  intro e he
  cases e <;> simp_all [evKind, ctxP, isNewThreadEv, isStoreEv, isQueryEv]

/-- On the non-command path the run trace is the thinking post followed by
the fallback branch. -/
theorem run_fallback (cfg : Config) (env : Env) (ev : SlackEvent) (t0 : String)
    (hq : cleanedQueryOf cfg ev ≠ "")
    (hdel : startsWithS (lowerS (cleanedQueryOf cfg ev)) "#delete_last_message" = false)
    (hpost : env.postRes 0 = .ok (some t0)) (ht0 : t0 ≠ "")
    (hgh : isPotentialGh cfg (cleanedQueryOf cfg ev) = false) :
    run cfg env ev =
      Ev.post ev.channel (replyTargetOf ev) ":hourglass_flowing_sand: Processing..." none ::
        (fallback cfg env ⟨1, 0, 0⟩ (cleanedQueryOf cfg ev) ev.channel (replyTargetOf ev)
          ev.ts t0).1 := by
  simp [run, hq, hdel, doPost_fst, doPost_res, doPost_ctr, hpost, ht0, hgh]

/-- On the command path the run trace is the thinking post followed by the
gh-command branch. -/
theorem run_gh (cfg : Config) (env : Env) (ev : SlackEvent) (t0 : String)
    (hq : cleanedQueryOf cfg ev ≠ "")
    (hdel : startsWithS (lowerS (cleanedQueryOf cfg ev)) "#delete_last_message" = false)
    (hpost : env.postRes 0 = .ok (some t0)) (ht0 : t0 ≠ "")
    (hgh : isPotentialGh cfg (cleanedQueryOf cfg ev) = true) :
    run cfg env ev =
      Ev.post ev.channel (replyTargetOf ev) ":hourglass_flowing_sand: Processing..." none ::
        (ghBranch cfg env ⟨1, 0, 0⟩ (cleanedQueryOf cfg ev) ev.channel (replyTargetOf ev)
          t0).1 := by
  simp [run, hq, hdel, doPost_fst, doPost_res, doPost_ctr, hpost, ht0, hgh]

/-- LLM path with an existing mapping in the resolved workspace: the context
trace is the stored thread reused for exactly one query, with no thread
creation and no mapping write anywhere. -/
theorem llmPath_reuse (cfg : Config) (env : Env) (c : Ctr)
    (q chan tgt ots ts0 : String) (sug : Option String) (m : Mapping)
    (hres : env.resolveWs sug = some m.wsSlug) (hw : m.wsSlug ≠ "")
    (hm : env.mapping = some m) :
    (llmPath cfg env c q chan tgt ots ts0 sug).1.filter ctxP =
      [Ev.queryLlm m.wsSlug m.threadSlug
        (trimS (removeOverrideS cfg.wsOverrideSigil q) ++ llmInstruction)] := by
  unfold llmPath
  simp only [hres, hm, hw, ne_eq, not_false_eq_true, if_true, reduceIte]
  rcases hqr : env.queryRes with mE | raw
  · simp [List.filter_append, updODT_ctx, fallbackCatch_ctx, ctxP,
      isNewThreadEv, isStoreEv, isQueryEv]
  · rcases raw with _ | sr
    · simp [List.filter_append, updODT_ctx, fallbackCatch_ctx, doPost_fst,
        doPost_res, doPost_ctr, ctxP, isNewThreadEv, isStoreEv, isQueryEv]
      split <;>
        simp [List.filter_append, updODT_ctx, fallbackCatch_ctx, ctxP,
          isNewThreadEv, isStoreEv, isQueryEv]
    · by_cases htr : trimS sr = ""
      · simp only [htr, if_true, reduceIte]
        simp [List.filter_append, updODT_ctx, fallbackCatch_ctx, doPost_fst,
          doPost_res, doPost_ctr, ctxP, isNewThreadEv, isStoreEv, isQueryEv]
        split <;>
          simp [List.filter_append, updODT_ctx, fallbackCatch_ctx, ctxP,
            isNewThreadEv, isStoreEv, isQueryEv]
      · simp [htr, List.filter_append, updODT_ctx, fallbackCatch_ctx,
          processReply_ctx, ctxP, isNewThreadEv, isStoreEv, isQueryEv]

/-- LLM path when the stored mapping points to a different workspace than
the resolved one: the context trace is exactly one thread creation in the
new workspace, one mapping overwrite to the new pair, and then the query on
the new thread — in that order. -/
theorem llmPath_newthread (cfg : Config) (env : Env) (c : Ctr)
    (q chan tgt ots ts0 w t : String) (sug : Option String) (m : Mapping)
    (hres : env.resolveWs sug = some w) (hw : w ≠ "")
    (hm : env.mapping = some m) (hmw : m.wsSlug ≠ w)
    (hnew : env.newThreadRes w = some t) (ht : t ≠ "") :
    (llmPath cfg env c q chan tgt ots ts0 sug).1.filter ctxP =
      [Ev.newThread w, Ev.storeMapping chan tgt w t,
       Ev.queryLlm w t
         (trimS (removeOverrideS cfg.wsOverrideSigil q) ++ llmInstruction)] := by
  unfold llmPath
  simp only [hres, hm, hmw, hnew, hw, ht, ne_eq, not_false_eq_true, if_true,
    reduceIte, if_false]
  rcases hqr : env.queryRes with mE | raw
  · simp [List.filter_append, updODT_ctx, fallbackCatch_ctx, ctxP,
      isNewThreadEv, isStoreEv, isQueryEv]
  · rcases raw with _ | sr
    · simp [List.filter_append, updODT_ctx, fallbackCatch_ctx, doPost_fst,
        doPost_res, doPost_ctr, ctxP, isNewThreadEv, isStoreEv, isQueryEv]
      split <;>
        simp [List.filter_append, updODT_ctx, fallbackCatch_ctx, ctxP,
          isNewThreadEv, isStoreEv, isQueryEv]
    · by_cases htr : trimS sr = ""
      · simp only [htr, if_true, reduceIte]
        simp [List.filter_append, updODT_ctx, fallbackCatch_ctx, doPost_fst,
          doPost_res, doPost_ctr, ctxP, isNewThreadEv, isStoreEv, isQueryEv]
        split <;>
          simp [List.filter_append, updODT_ctx, fallbackCatch_ctx, ctxP,
            isNewThreadEv, isStoreEv, isQueryEv]
      · simp [htr, List.filter_append, updODT_ctx, fallbackCatch_ctx,
          processReply_ctx, ctxP, isNewThreadEv, isStoreEv, isQueryEv]

theorem updODTCatch_fb (b : Bool) (k m : String) :
    ∀ e ∈ updODTCatch b k m, isFallbackCaught e = false := by
  intro e he
  unfold updODTCatch at he
  rcases List.mem_append.mp he with h | h
  · simp_all [isFallbackCaught]
  · split at h <;> simp_all [isFallbackCaught]

theorem updODT_fb (env : Env) (c : Ctr) (ts : Option String) (chan : String)
    (u : Option String) : (updODT env c ts chan u).1.filter isFallbackCaught = [] := by
  rw [List.filter_eq_nil_iff]
  intro e he
  unfold updODT at he
  split at he
  · simp at he
  split at he
  · simp_all [isFallbackCaught]
  split at he
  · simp at he
  rename_i ts2
  split at he
  · split at he
    · simp_all [isFallbackCaught]
    · rcases List.mem_append.mp he with h | h
      · simp_all [isFallbackCaught]
      · simp [updODTCatch_fb _ _ _ e h]
  · split at he
    · simp_all [isFallbackCaught]
    · rcases List.mem_append.mp he with h | h
      · simp_all [isFallbackCaught]
      · simp [updODTCatch_fb _ _ _ e h]

theorem feedbackPost_fb (env : Env) (c : Ctr) (chan tgt ots ws : String) :
    (feedbackPost env c chan tgt ots ws).1.filter isFallbackCaught = [] := by
  rw [List.filter_eq_nil_iff]
  intro e he
  unfold feedbackPost at he
  simp only [doPost_fst, doPost_res, doPost_ctr, feedbackCatch] at he
  rcases hr : env.postRes c.post with tsv | ⟨k, mv⟩ <;>
    simp only [hr, List.append_assoc, List.cons_append, List.nil_append,
      List.mem_cons, List.not_mem_nil, or_false] at he
  · subst he; simp [isFallbackCaught]
  · rcases he with h | h | h <;> subst h <;> simp [isFallbackCaught]

theorem segLoop_fb (env : Env) (chan tgt : String) (total : Nat) :
    ∀ segs i c last, (segLoop env chan tgt total segs i c last).1.filter
      isFallbackCaught = [] := by
  intro segs
  induction segs with
  | nil => intro i c last; simp [segLoop]
  | cons s rest ih =>
    intro i c last
    rw [List.filter_eq_nil_iff]
    intro e he
    by_cases hts : segmentText s = ""
    · simp only [segLoop] at he
      rw [if_pos hts] at he
      have := ih (i + 1) c last
      rw [List.filter_eq_nil_iff] at this
      exact this e he
    · simp only [segLoop, if_neg hts, doPost_fst, doPost_res, doPost_ctr,
        List.mem_append] at he
      rcases he with (((hw | hp) | hq) | hs) | hr
      · split at hw <;> simp_all [isFallbackCaught]
      · simp only [List.mem_cons, List.not_mem_nil, or_false] at hp
        subst hp; simp [isFallbackCaught]
      · rcases hr2 : env.postRes c.post with tsv | ⟨k, mv⟩ <;>
          simp only [hr2] at hq
        · simp at hq
        · split at hq
          · rcases hr3 : env.postRes (c.post + 1) with tsv2 | ⟨k2, mv2⟩ <;>
              simp only [hr3, segRetryCatch, segPostCatch, List.append_assoc, List.cons_append,
                List.nil_append, List.mem_cons, List.not_mem_nil, or_false] at hq
            · rcases hq with h | h | h <;> subst h <;> simp [isFallbackCaught]
            · rcases hq with h | h | h | h <;> subst h <;> simp [isFallbackCaught]
          · simp only [segPostCatch, List.mem_cons, List.not_mem_nil, or_false] at hq
            rcases hq with h | h <;> subst h <;> simp [isFallbackCaught]
      · split at hs <;> simp_all [isFallbackCaught]
      · exact (List.filter_eq_nil_iff.mp (ih (i + 1) _ _)) e hr

theorem processReply_fb (cfg : Config) (env : Env) (hp : postsOk env) (c : Ctr)
    (chan tgt ots ws tr : String) :
    (processReply cfg env c chan tgt ots ws tr).1.filter isFallbackCaught = [] := by
  by_cases hseg : (env.segmentsOf tr).isEmpty
  · obtain ⟨u, hu⟩ := hp c.post
    simp only [processReply, hseg, if_true, doPost_fst, doPost_res, doPost_ctr, hu]
    split
    · simp [List.filter_append, feedbackPost_fb, isFallbackCaught]
    · simp [List.filter_append, isFallbackCaught]
  · simp only [processReply, hseg, if_false, Bool.false_eq_true]
    split
    · simp [List.filter_append, segLoop_fb, feedbackPost_fb]
    · simp [segLoop_fb]

/-! ### Claims -/

/-- Claim C7: for every inbound message whose text, after stripping the bot
mention token and trimming, is empty, the handler returns immediately: the
effect trace is empty — no thinking placeholder, no command, no LLM or
classifier call. -/
theorem claim_C7 (cfg : Config) (env : Env) (ev : SlackEvent)
    (h : cleanedQueryOf cfg ev = "") : run cfg env ev = [] := by
  simp [run, h]

/-- Witness for C7 at a pure-mention message. -/
theorem claim_C7_witness :
    cleanedQueryOf cfgA (evOf "<@U1>   ") = "" ∧
    run cfgA envA (evOf "<@U1>   ") = [] :=
  ⟨by decide, claim_C7 cfgA envA (evOf "<@U1>   ") (by decide)⟩

/-- Claim C10: every cleaned message whose lower-cased text begins with
`#delete_last_message` — trailing characters allowed — is dispatched to the
delete handler and nothing else happens: no placeholder post, no GitHub
configuration check, no grammar matching, whatever the configured command
prefix is. -/
theorem claim_C10 (cfg : Config) (env : Env) (ev : SlackEvent)
    (h : startsWithS (lowerS (cleanedQueryOf cfg ev)) "#delete_last_message" = true) :
    run cfg env ev = [.runDeleteLast ev.channel (replyTargetOf ev)] := by
  have hne : ¬(cleanedQueryOf cfg ev = "") := by
    intro he
    rw [he] at h
    exact absurd h (by decide)
  simp [run, hne, h]

/-- Witness for C10: mixed case, trailing text, and a configured command
prefix that itself begins with `#del`; the delete dispatch still wins. -/
theorem claim_C10_witness :
    startsWithS (lowerS (cleanedQueryOf cfgD (evOf "#DELETE_Last_MessageXYZ trailing")))
      "#delete_last_message" = true ∧
    run cfgD envA (evOf "#DELETE_Last_MessageXYZ trailing") =
      [.runDeleteLast "C1" "111.22"] :=
  ⟨by decide, claim_C10 cfgD envA (evOf "#DELETE_Last_MessageXYZ trailing") (by decide)⟩

/-- Claim C3: a later non-command message in a conversation whose stored
mapping is in the workspace the resolver also picks reuses the stored thread
slug for the single LLM query; no thread-creation call and no mapping write
occur anywhere in the trace. -/
theorem claim_C3 (cfg : Config) (env : Env) (ev : SlackEvent) (t0 : String) (m : Mapping)
    (hq : cleanedQueryOf cfg ev ≠ "")
    (hdel : startsWithS (lowerS (cleanedQueryOf cfg ev)) "#delete_last_message" = false)
    (hpost : env.postRes 0 = .ok (some t0)) (ht0 : t0 ≠ "")
    (hgh : isPotentialGh cfg (cleanedQueryOf cfg ev) = false)
    (hrt : routingTriggers cfg (detectIntentAndWorkspace env) = false)
    (hres : env.resolveWs (detectIntentAndWorkspace env).suggestedWorkspace = some m.wsSlug)
    (hw : m.wsSlug ≠ "")
    (hm : env.mapping = some m) :
    (run cfg env ev).filter ctxP =
      [Ev.queryLlm m.wsSlug m.threadSlug
        (trimS (removeOverrideS cfg.wsOverrideSigil (cleanedQueryOf cfg ev)) ++
          llmInstruction)] := by
  rw [run_fallback cfg env ev t0 hq hdel hpost ht0 hgh]
  unfold fallback
  simp only [hrt, Bool.false_eq_true, if_false, reduceIte]
  simp [List.filter_append, ctxP, isNewThreadEv, isStoreEv, isQueryEv,
    llmPath_reuse cfg env ⟨1, 0, 0⟩ (cleanedQueryOf cfg ev) ev.channel
      (replyTargetOf ev) ev.ts t0 (detectIntentAndWorkspace env).suggestedWorkspace
      m hres hw hm]

/-- Witness for C3: with mapping `(wsA, th9)` and resolver answer `wsA`, the
only context event is a query on thread `th9`. -/
theorem claim_C3_witness :
    envC3.mapping = some ⟨"wsA", "th9"⟩ ∧
    (run cfgA envC3 (evOf "how does entry meta work")).filter ctxP =
      [Ev.queryLlm "wsA" "th9"
        (trimS (removeOverrideS "$" "how does entry meta work") ++ llmInstruction)] :=
  ⟨rfl, claim_C3 cfgA envC3 (evOf "how does entry meta work") "T1" ⟨"wsA", "th9"⟩
    (by decide) (by decide) rfl (by decide) (by decide) (by decide) rfl
    (by decide) rfl⟩

/-- Claim C2 counterexample: an issue-analysis command with an explicit
workspace `w2` in a conversation mapped to `(w1, t1)` resolves to `w2` but
creates no new thread and writes no mapping — the executor runs with the new
workspace and the old stored thread. -/
theorem claim_C2_cex :
    (run cfgA envC2 (evOf "gh> analyze issue #5 #w2")).filter
        (fun e => isNewThreadEv e || isStoreEv e) = [] ∧
    Ev.execIssue "gravityforms" "backlog" 5 none "w2" "t1" ∈
      run cfgA envC2 (evOf "gh> analyze issue #5 #w2") := by
  decide

/-- Claim C2 (amended to the LLM fallback path): a later non-command message
whose resolved workspace differs from the stored mapping workspace triggers
exactly one thread creation in the new workspace and exactly one mapping
overwrite to the new pair, both before the LLM query runs. -/
theorem claim_C2_amended (cfg : Config) (env : Env) (ev : SlackEvent)
    (t0 w t : String) (m : Mapping)
    (hq : cleanedQueryOf cfg ev ≠ "")
    (hdel : startsWithS (lowerS (cleanedQueryOf cfg ev)) "#delete_last_message" = false)
    (hpost : env.postRes 0 = .ok (some t0)) (ht0 : t0 ≠ "")
    (hgh : isPotentialGh cfg (cleanedQueryOf cfg ev) = false)
    (hrt : routingTriggers cfg (detectIntentAndWorkspace env) = false)
    (hres : env.resolveWs (detectIntentAndWorkspace env).suggestedWorkspace = some w)
    (hw : w ≠ "")
    (hm : env.mapping = some m) (hmw : m.wsSlug ≠ w)
    (hnew : env.newThreadRes w = some t) (ht : t ≠ "") :
    (run cfg env ev).filter ctxP =
      [Ev.newThread w, Ev.storeMapping ev.channel (replyTargetOf ev) w t,
       Ev.queryLlm w t
         (trimS (removeOverrideS cfg.wsOverrideSigil (cleanedQueryOf cfg ev)) ++
           llmInstruction)] := by
  rw [run_fallback cfg env ev t0 hq hdel hpost ht0 hgh]
  unfold fallback
  simp only [hrt, Bool.false_eq_true, if_false, reduceIte]
  simp [List.filter_append, ctxP, isNewThreadEv, isStoreEv, isQueryEv,
    llmPath_newthread cfg env ⟨1, 0, 0⟩ (cleanedQueryOf cfg ev) ev.channel
      (replyTargetOf ev) ev.ts t0 w t (detectIntentAndWorkspace env).suggestedWorkspace
      m hres hw hm hmw hnew ht]

/-- Witness for the amended C2: mapping `(w1, t1)`, resolver answer `wsA`:
one creation in `wsA`, one overwrite to `(wsA, th1)`, then the query. -/
theorem claim_C2_amended_witness :
    envC2.mapping = some ⟨"w1", "t1"⟩ ∧
    (run cfgA envC2 (evOf "what changed lately")).filter ctxP =
      [Ev.newThread "wsA", Ev.storeMapping "C1" "111.22" "wsA" "th1",
       Ev.queryLlm "wsA" "th1"
         (trimS (removeOverrideS "$" "what changed lately") ++ llmInstruction)] :=
  ⟨rfl, claim_C2_amended cfgA envC2 (evOf "what changed lately") "T1" "wsA" "th1"
    ⟨"w1", "t1"⟩ (by decide) (by decide) rfl (by decide) (by decide) (by decide)
    rfl (by decide) rfl (by decide) rfl (by decide)⟩

/-- Claim C5: when the underlying intent-classification call fails, the
orchestrator treats the result as no intent and no workspace suggestion,
still resolves a workspace (with a `none` suggestion) and queries the LLM,
and the classification failure never enters the conversation-level error
catch. -/
theorem claim_C5 (cfg : Config) (env : Env) (ev : SlackEvent)
    (t0 w th em r : String)
    (hq : cleanedQueryOf cfg ev ≠ "")
    (hdel : startsWithS (lowerS (cleanedQueryOf cfg ev)) "#delete_last_message" = false)
    (hpost : env.postRes 0 = .ok (some t0)) (ht0 : t0 ≠ "")
    (hgh : isPotentialGh cfg (cleanedQueryOf cfg ev) = false)
    (hcl : env.classifyRaw = .error em)
    (hres : env.resolveWs none = some w) (hw : w ≠ "")
    (hm : env.mapping = none)
    (hnew : env.newThreadRes w = some th) (hth : th ≠ "")
    (hqr : env.queryRes = .ok (some r)) (htr : trimS r ≠ "")
    (hposts : postsOk env) :
    detectIntentAndWorkspace env = ⟨none, 0, none⟩ ∧
    Ev.resolveWs none ∈ run cfg env ev ∧
    Ev.queryLlm w th
      (trimS (removeOverrideS cfg.wsOverrideSigil (cleanedQueryOf cfg ev)) ++
        llmInstruction) ∈ run cfg env ev ∧
    (run cfg env ev).filter isFallbackCaught = [] := by
  have hdet : detectIntentAndWorkspace env = ⟨none, 0, none⟩ := by
    simp [detectIntentAndWorkspace, hcl]
  have hrt : routingTriggers cfg ⟨none, 0, none⟩ = false := by
    simp [routingTriggers, truthyO]
  refine ⟨hdet, ?_, ?_, ?_⟩ <;>
  · rw [run_fallback cfg env ev t0 hq hdel hpost ht0 hgh]
    unfold fallback llmPath
    simp [hrt, hdet, hres, hm, hnew, hqr, hw, hth, htr,
      List.filter_append, updODT_fb, processReply_fb cfg env hposts,
      isFallbackCaught]

/-- Environment whose intent-classification call fails. -/
def envC5 : Env := { envA with classifyRaw := .error "inference backend down" }

/-- Witness for C5: the classifier backend fails, the query still reaches
the LLM in the resolved workspace and no error reply is produced. -/
theorem claim_C5_witness :
    envC5.classifyRaw = .error "inference backend down" ∧
    (detectIntentAndWorkspace envC5 = ⟨none, 0, none⟩ ∧
     Ev.resolveWs none ∈ run cfgA envC5 (evOf "tell me about perks") ∧
     Ev.queryLlm "wsA" "th1"
       (trimS (removeOverrideS "$" "tell me about perks") ++ llmInstruction) ∈
         run cfgA envC5 (evOf "tell me about perks") ∧
     (run cfgA envC5 (evOf "tell me about perks")).filter isFallbackCaught = []) :=
  ⟨rfl, claim_C5 cfgA envC5 (evOf "tell me about perks")
    "T1" "wsA" "th1" "inference backend down" "hello world reply"
    (by decide) (by decide) rfl (by decide) (by decide) rfl rfl (by decide) rfl
    rfl (by decide) rfl (by decide) (fun n => ⟨some "T1", rfl⟩)⟩

theorem updODT_replyPost (txt : String) (env : Env) (c : Ctr) (ts : Option String)
    (chan : String) (u : Option String) :
    (updODT env c ts chan u).1.filter (isReplyPostOf txt) = [] := by
  refine filter_eq_nil_of_kinds (updODT_kind env c ts chan u) ?_
  intro e he
  cases e <;> simp_all [evKind, isReplyPostOf]

/-- Zero-segment fallback (lines 361-369): the reply post carrying the
trimmed text is emitted exactly once by the reply processing. -/
theorem processReply_raw (cfg : Config) (env : Env) (hposts : postsOk env)
    (c : Ctr) (chan tgt ots ws tr : String)
    (hseg : env.segmentsOf tr = [])
    (hs2 : tr ≠ feedbackText) (hs3 : "feedback_" ++ ots ++ "_" ++ ws ≠ tr) :
    (processReply cfg env c chan tgt ots ws tr).1.filter (isReplyPostOf tr) =
      [Ev.post chan tgt (if env.mdBlockOk tr then truncate200 tr else tr)
        (if env.mdBlockOk tr then some tr else none)] := by
  obtain ⟨u, hu⟩ := hposts c.post
  by_cases hmb : env.mdBlockOk tr = true <;>
  · simp only [processReply, hseg, List.isEmpty_nil, if_true,
      doPost_fst, doPost_res, doPost_ctr, hu, hmb, if_false]
    split
    · obtain ⟨u2, hu2⟩ := hposts (c.post + 1)
      simp only [feedbackPost, doPost_fst, doPost_res, doPost_ctr, hu2]
      simp [List.filter_append, isReplyPostOf, Ne.symm hs2, hs3, hmb]
    · simp [List.filter_append, isReplyPostOf, hmb]

/-- Claim C8: a non-empty trimmed LLM reply whose segmentation yields zero
segments is posted raw as exactly one message (with the block payload when a
rich block builds, the raw text otherwise) instead of being dropped. -/
theorem claim_C8 (cfg : Config) (env : Env) (ev : SlackEvent)
    (t0 r : String) (m : Mapping)
    (hq : cleanedQueryOf cfg ev ≠ "")
    (hdel : startsWithS (lowerS (cleanedQueryOf cfg ev)) "#delete_last_message" = false)
    (hpost : env.postRes 0 = .ok (some t0)) (ht0 : t0 ≠ "")
    (hgh : isPotentialGh cfg (cleanedQueryOf cfg ev) = false)
    (hrt : routingTriggers cfg (detectIntentAndWorkspace env) = false)
    (hres : env.resolveWs (detectIntentAndWorkspace env).suggestedWorkspace = some m.wsSlug)
    (hw : m.wsSlug ≠ "") (hm : env.mapping = some m)
    (hqr : env.queryRes = .ok (some r)) (htr : trimS r ≠ "")
    (hseg : env.segmentsOf (trimS r) = [])
    (hposts : postsOk env)
    (hs1 : trimS r ≠ ":hourglass_flowing_sand: Processing...")
    (hs2 : trimS r ≠ feedbackText)
    (hs3 : "feedback_" ++ ev.ts ++ "_" ++ m.wsSlug ≠ trimS r) :
    (run cfg env ev).filter (isReplyPostOf (trimS r)) =
      [Ev.post ev.channel (replyTargetOf ev)
        (if env.mdBlockOk (trimS r) then truncate200 (trimS r) else trimS r)
        (if env.mdBlockOk (trimS r) then some (trimS r) else none)] := by
  rw [run_fallback cfg env ev t0 hq hdel hpost ht0 hgh]
  unfold fallback llmPath
  simp only [hrt, Bool.false_eq_true, if_false, reduceIte, hres, hm, hw, hqr, htr,
    ne_eq, not_false_eq_true, if_true]
  simp [List.filter_append, updODT_replyPost, isReplyPostOf, Ne.symm hs1,
    processReply_raw cfg env hposts _ _ _ _ _ _ hseg hs2 hs3]

/-- Environment whose segmenter returns no segments. -/
def envC8 : Env := { envC3 with segmentsOf := fun _ => [] }

/-- Witness for C8: segmentation of the non-empty reply yields nothing, so
the raw trimmed reply is posted once (as a rich block). -/
theorem claim_C8_witness :
    envC8.segmentsOf (trimS "hello world reply") = [] ∧
    trimS "hello world reply" ≠ "" ∧
    (run cfgA envC8 (evOf "what is this")).filter
        (isReplyPostOf (trimS "hello world reply")) =
      [Ev.post "C1" "111.22"
        (if envC8.mdBlockOk (trimS "hello world reply") then
          truncate200 (trimS "hello world reply") else trimS "hello world reply")
        (if envC8.mdBlockOk (trimS "hello world reply") then
          some (trimS "hello world reply") else none)] :=
  ⟨rfl, by decide,
    claim_C8 cfgA envC8 (evOf "what is this") "T1" "hello world reply"
      ⟨"wsA", "th9"⟩ (by decide) (by decide) rfl (by decide) (by decide)
      (by decide) rfl (by decide) rfl rfl (by decide) rfl
      (fun n => ⟨some "T1", rfl⟩) (by decide) (by decide) (by decide)⟩

theorem updODT_feedback (env : Env) (c : Ctr) (ts : Option String)
    (chan : String) (u : Option String) :
    (updODT env c ts chan u).1.filter isFeedbackEv = [] := by
  refine filter_eq_nil_of_kinds (updODT_kind env c ts chan u) ?_
  intro e he
  cases e <;> simp_all [evKind, isFeedbackEv]

/-- A segment with nonempty trimmed content renders to a nonempty message
text. -/
theorem segmentText_ne_of_good {sg : Segment} (h : trimS sg.content ≠ "") :
    segmentText sg ≠ "" := by
  unfold segmentText
  cases hk : sg.kind
  · simpa using h
  · rw [if_pos h]
    intro hcon
    have := congrArg String.data hcon
    simp [String.data_append] at this

theorem segLoop_truthy (env : Env) (hpt : postsTruthy env) (chan tgt : String)
    (total : Nat) :
    ∀ segs i c last, (∀ sg ∈ segs, trimS sg.content ≠ "") →
      (segs ≠ [] ∨ truthyO last = true) →
      truthyO (segLoop env chan tgt total segs i c last).2.2 = true := by
  intro segs
  induction segs with
  | nil =>
    intro i c last hgood hne
    rcases hne with hne | hne
    · exact absurd rfl hne
    · simpa [segLoop] using hne
  | cons s rest ih =>
    intro i c last hgood hne
    have hts : segmentText s ≠ "" := segmentText_ne_of_good (hgood s (by simp))
    obtain ⟨u, hu, hut⟩ := hpt c.post
    simp only [segLoop, if_neg hts, doPost_fst, doPost_res, doPost_ctr, hu]
    exact ih _ _ _ (fun sg hsg => hgood sg (by simp [hsg]))
      (Or.inr (by simp [truthyO, hut]))

theorem segLoop_feedback (env : Env) (chan tgt : String) (total : Nat) :
    ∀ segs i c last,
      (∀ sg ∈ segs, segmentText sg ≠ feedbackText ∧ segmentFallback sg ≠ feedbackText) →
      (segLoop env chan tgt total segs i c last).1.filter isFeedbackEv = [] := by
  intro segs
  induction segs with
  | nil => intro i c last _; simp [segLoop]
  | cons s rest ih =>
    intro i c last hnofb
    have hrest : ∀ sg ∈ rest, segmentText sg ≠ feedbackText ∧ segmentFallback sg ≠ feedbackText :=
      fun sg hsg => hnofb sg (by simp [hsg])
    obtain ⟨hst, hsf⟩ := hnofb s (by simp)
    by_cases hts : segmentText s = ""
    · simp only [segLoop] at *
      rw [if_pos hts]
      exact ih _ _ _ hrest
    · rw [List.filter_eq_nil_iff]
      intro e he
      simp only [segLoop, if_neg hts, doPost_fst, doPost_res, doPost_ctr,
        List.mem_append] at he
      rcases he with (((hw | hp) | hq) | hs) | hr
      · split at hw <;> simp_all [isFeedbackEv]
      · simp only [List.mem_cons, List.not_mem_nil, or_false] at hp
        subst hp
        split <;> simp [isFeedbackEv, hsf, hst]
      · rcases hr2 : env.postRes c.post with tsv | ⟨k, mv⟩ <;>
          simp only [hr2] at hq
        · simp at hq
        · split at hq
          · rcases hr3 : env.postRes (c.post + 1) with tsv2 | ⟨k2, mv2⟩ <;>
              simp only [hr3, segRetryCatch, segPostCatch, List.append_assoc, List.cons_append,
                List.nil_append, List.mem_cons, List.not_mem_nil, or_false] at hq
            · rcases hq with h | h | h <;> subst h <;> simp [isFeedbackEv, hst]
            · rcases hq with h | h | h | h <;> subst h <;> simp [isFeedbackEv, hst]
          · simp only [segPostCatch, List.mem_cons, List.not_mem_nil, or_false] at hq
            rcases hq with h | h <;> subst h <;> simp [isFeedbackEv]
      · split at hs <;> simp_all [isFeedbackEv]
      · exact (List.filter_eq_nil_iff.mp (ih (i + 1) _ _ hrest)) e hr

/-- Reply processing with a nonempty segmentation and truthy successful
posts: the feedback affordance is posted exactly when the trimmed reply
meets the substantive threshold. -/
theorem processReply_feedback (cfg : Config) (env : Env) (hpt : postsTruthy env)
    (c : Ctr) (chan tgt ots ws tr : String)
    (hsegne : env.segmentsOf tr ≠ [])
    (hgood : ∀ sg ∈ env.segmentsOf tr, trimS sg.content ≠ "")
    (hnofb : ∀ sg ∈ env.segmentsOf tr,
      segmentText sg ≠ feedbackText ∧ segmentFallback sg ≠ feedbackText) :
    (processReply cfg env c chan tgt ots ws tr).1.filter isFeedbackEv =
      (if cfg.minSubstantive ≤ tr.length then
        [Ev.post chan tgt feedbackText (some ("feedback_" ++ ots ++ "_" ++ ws))]
      else []) := by
  have hne : ¬((env.segmentsOf tr).isEmpty = true) := by
    simpa [List.isEmpty_iff] using hsegne
  have htruthy := segLoop_truthy env hpt chan tgt (env.segmentsOf tr).length
    (env.segmentsOf tr) 0 c none hgood (Or.inl hsegne)
  simp only [processReply, hne, if_false]
  by_cases hsub : cfg.minSubstantive ≤ tr.length
  · obtain ⟨u2, hu2, _⟩ := hpt (segLoop env chan tgt (env.segmentsOf tr).length
      (env.segmentsOf tr) 0 c none).2.1.post
    simp only [htruthy, hsub, decide_eq_true_eq, Bool.true_and, if_pos,
      feedbackPost, doPost_fst, doPost_res, doPost_ctr, hu2]
    simp [List.filter_append, segLoop_feedback env chan tgt _ _ _ _ _ hnofb,
      isFeedbackEv, hsub]
  · simp only [htruthy, Bool.true_and]
    rw [if_neg (by simpa using hsub)]
    simp [segLoop_feedback env chan tgt _ _ _ _ _ hnofb, hsub]

/-- Claim C6 counterexample: with the substantive threshold 5 and a trimmed
reply of length exactly 5, the feedback affordance is posted although the
reply length does not exceed the threshold — the claimed "if and only if
the length exceeds the threshold" fails at equality (the code tests `>=`,
line 355). -/
theorem claim_C6_cex :
    (run cfgA envC6 (evOf "hi there")).filter isFeedbackEv ≠ [] ∧
    ¬(cfgA.minSubstantive < (trimS "12345").length) := by
  decide

/-- Claim C6 (amended): with a nonempty segmentation of nonempty segments
and successful truthy posts, the feedback affordance is posted — attached
after the reply segments — exactly when the trimmed reply length meets or
exceeds the substantive threshold, and never otherwise. -/
theorem claim_C6_amended (cfg : Config) (env : Env) (ev : SlackEvent)
    (t0 r : String) (m : Mapping)
    (hq : cleanedQueryOf cfg ev ≠ "")
    (hdel : startsWithS (lowerS (cleanedQueryOf cfg ev)) "#delete_last_message" = false)
    (hpost : env.postRes 0 = .ok (some t0)) (ht0 : t0 ≠ "")
    (hgh : isPotentialGh cfg (cleanedQueryOf cfg ev) = false)
    (hrt : routingTriggers cfg (detectIntentAndWorkspace env) = false)
    (hres : env.resolveWs (detectIntentAndWorkspace env).suggestedWorkspace = some m.wsSlug)
    (hw : m.wsSlug ≠ "") (hm : env.mapping = some m)
    (hqr : env.queryRes = .ok (some r)) (htr : trimS r ≠ "")
    (hsegne : env.segmentsOf (trimS r) ≠ [])
    (hgood : ∀ sg ∈ env.segmentsOf (trimS r), trimS sg.content ≠ "")
    (hnofb : ∀ sg ∈ env.segmentsOf (trimS r),
      segmentText sg ≠ feedbackText ∧ segmentFallback sg ≠ feedbackText)
    (hpt : postsTruthy env) :
    (run cfg env ev).filter isFeedbackEv =
      (if cfg.minSubstantive ≤ (trimS r).length then
        [Ev.post ev.channel (replyTargetOf ev) feedbackText
          (some ("feedback_" ++ ev.ts ++ "_" ++ m.wsSlug))]
      else []) := by
  rw [run_fallback cfg env ev t0 hq hdel hpost ht0 hgh]
  unfold fallback llmPath
  simp only [hrt, Bool.false_eq_true, if_false, reduceIte, hres, hm, hw, hqr, htr,
    ne_eq, not_false_eq_true, if_true]
  simp [List.filter_append, updODT_feedback, isFeedbackEv, feedbackText,
    processReply_feedback cfg env hpt _ _ _ _ _ _ hsegne hgood hnofb]

/-- Witness for the amended C6: a 17-character reply over threshold 5 gets
the feedback post; the filter equation evaluates on the concrete run. -/
theorem claim_C6_amended_witness :
    (5 : Nat) ≤ (trimS "hello world reply").length ∧
    (run cfgA envC3 (evOf "whats new")).filter isFeedbackEv =
      (if cfgA.minSubstantive ≤ (trimS "hello world reply").length then
        [Ev.post "C1" "111.22" feedbackText (some ("feedback_" ++ "111.22" ++ "_" ++ "wsA"))]
      else []) :=
  ⟨by decide,
    claim_C6_amended cfgA envC3 (evOf "whats new") "T1" "hello world reply"
      ⟨"wsA", "th9"⟩ (by decide) (by decide) rfl (by decide) (by decide) (by decide)
      rfl (by decide) rfl rfl (by decide) (by decide)
      (by intro sg hsg; simp [envC3, envA] at hsg; subst hsg; decide)
      (by intro sg hsg; simp [envC3, envA] at hsg; subst hsg; constructor <;> decide)
      (fun n => ⟨"T1", rfl, by decide⟩)⟩

/-- Claim C9 counterexample: when the placeholder deletion fails with kind
`message_not_found`, the error is caught (the `Ev.caught` event is in the
trace) yet the whole run emits no log entry at all and never enters the
user-facing error catch — the error is dropped with neither a log nor a
surfaced message. -/
theorem claim_C9_cex :
    Ev.caught "updODT" "message not found" ∈ run cfgA envC9 (evOf "hi there") ∧
    (run cfgA envC9 (evOf "hi there")).filter isLogEv = [] ∧
    (run cfgA envC9 (evOf "hi there")).filter isFallbackCaught = [] := by
  decide

/-- Claim C9 (amended): every catch block of the handler emits a log entry
(or, for the outer catch, a log entry and a user-facing message) — except
the three deliberately silent ones: placeholder update/delete failures of
kind `message_not_found` or `cant_update_message`, the block-less retry of a
failed segment post, and the failure of the error-notice post inside the
outer catch. -/
theorem claim_C9_amended :
    (∀ (b : Bool) (k m : String), k ≠ "message_not_found" →
      k ≠ "cant_update_message" → ∃ s, Ev.log s ∈ updODTCatch b k m) ∧
    (∀ m, ∃ s, Ev.log s ∈ thinkingCatch m) ∧
    (∀ m, ∃ s, Ev.log s ∈ segPostCatch m) ∧
    (∀ m, ∃ s, Ev.log s ∈ feedbackCatch m) ∧
    (∀ env c chan ts m, ∃ s, Ev.log s ∈ (issueCatch env c chan ts m).1) ∧
    (∀ env c chan tgt tsOpt m, ∃ s, Ev.log s ∈ (fallbackCatch env c chan tgt tsOpt m).1) := by
  refine ⟨?_, ?_, ?_, ?_, ?_, ?_⟩
  · intro b k m h1 h2
    exact ⟨(if b = true then "[Util] Failed to update thinking message: "
            else "[Util] Failed to delete thinking message: ") ++ m,
      by simp [updODTCatch, h1, h2]⟩
  · intro m
    exact ⟨"[Msg Handler] Failed post initial thinking message: " ++ m,
      by simp [thinkingCatch]⟩
  · intro m
    exact ⟨"[Msg Handler] Error posting segment: " ++ m, by simp [segPostCatch]⟩
  · intro m
    exact ⟨"[Msg Handler] Failed post feedback buttons: " ++ m,
      by simp [feedbackCatch]⟩
  · intro env c chan ts m
    exact ⟨"[Msg Handler-IssueCmd] Context/Thread Setup Error: " ++ m, by
      unfold issueCatch; simp⟩
  · intro env c chan tgt tsOpt m
    refine ⟨"[Msg Handler Error - Intent/LLM Path] " ++ m, ?_⟩
    unfold fallbackCatch
    split
    · simp
    · simp only [doPost_fst, doPost_res, doPost_ctr]
      rcases env.postRes c.post with tsv | ⟨k, mv⟩ <;> simp

/-- Witness for the amended C9 at a non-benign error kind. -/
theorem claim_C9_amended_witness :
    ∃ s, Ev.log s ∈ updODTCatch true "fatal_error" "boom" :=
  claim_C9_amended.1 true "fatal_error" "boom" (by decide) (by decide)

theorem beginsWith_append_self (p rest : List Char) :
    beginsWith p (p ++ rest) = true := by
  induction p with
  | nil => rfl
  | cons c cs ih => simp [beginsWith, ih]

theorem brain_starts (w : String) :
    startsWithS (brainTextOf w) ":brain: Thinking in workspace" = true := by
  have h1 : brainTextOf w =
      ":brain: Thinking in workspace" ++ (" `" ++ (w ++ "`...")) := by
    unfold brainTextOf
    rw [show ":brain: Thinking in workspace `" =
      ":brain: Thinking in workspace" ++ " `" from rfl]
    rw [String.append_assoc, String.append_assoc]
  rw [h1]
  show beginsWith _ _ = true
  rw [String.data_append]
  exact beginsWith_append_self _ _

theorem oops_not_brain (m : String) :
    startsWithS (oopsText m) ":brain: Thinking in workspace" = false := rfl

theorem updODTCatch_plac (t0 : String) (b : Bool) (k m : String) :
    (updODTCatch b k m).filter (isPlacEv t0) = [] := by
  refine filter_eq_nil_of_kinds (updODTCatch_kind b k m) ?_
  intro e he
  cases e <;> simp_all [evKind, isPlacEv]

theorem updODT_plac_upd (t0 chan : String) (ht0 : t0 ≠ "") (hchan : chan ≠ "")
    (env : Env) (c : Ctr) (txt : String) :
    (updODT env c (some t0) chan (some txt)).1.filter (isPlacEv t0) =
      [Ev.update chan t0 txt] := by
  unfold updODT
  rw [show truthyO (some t0) = true from by simp [truthyO, ht0]]
  simp only [Bool.not_true, Bool.false_eq_true, if_false, if_neg hchan]
  rcases hu : env.updateRes c.upd with tsv | ⟨k, mv⟩ <;>
    simp [hu, List.filter_append, isPlacEv, updODTCatch_plac]

theorem updODT_plac_del (t0 chan : String) (ht0 : t0 ≠ "") (hchan : chan ≠ "")
    (env : Env) (c : Ctr) :
    (updODT env c (some t0) chan none).1.filter (isPlacEv t0) =
      [Ev.del chan t0] := by
  unfold updODT
  rw [show truthyO (some t0) = true from by simp [truthyO, ht0]]
  simp only [Bool.not_true, Bool.false_eq_true, if_false, if_neg hchan]
  rcases hu : env.deleteRes c.del with tsv | ⟨k, mv⟩ <;>
    simp [hu, List.filter_append, isPlacEv, updODTCatch_plac]

theorem fallbackCatch_plac_some (t0 chan : String) (ht0 : t0 ≠ "") (hchan : chan ≠ "")
    (env : Env) (c : Ctr) (tgt m : String) :
    (fallbackCatch env c chan tgt (some t0) m).1.filter (isPlacEv t0) =
      [Ev.update chan t0 (oopsText m)] := by
  unfold fallbackCatch
  rw [show truthyO (some t0) = true from by simp [truthyO, ht0]]
  simp only [if_true]
  simp [List.filter_append, isPlacEv, updODT_plac_upd t0 chan ht0 hchan]

theorem fallbackCatchNone_plac (t0 : String) (env : Env) (c : Ctr)
    (chan tgt m : String) :
    (fallbackCatch env c chan tgt none m).1.filter (isPlacEv t0) = [] := by
  refine filter_eq_nil_of_kinds (fallbackCatchNone_kind env c chan tgt m) ?_
  intro e he
  cases e <;> simp_all [evKind, isPlacEv]

theorem processReply_plac (t0 : String) (cfg : Config) (env : Env) (c : Ctr)
    (chan tgt ots ws tr : String) :
    (processReply cfg env c chan tgt ots ws tr).1.filter (isPlacEv t0) = [] := by
  refine filter_eq_nil_of_kinds (processReply_kind cfg env c chan tgt ots ws tr) ?_
  intro e he
  cases e <;> simp_all [evKind, isPlacEv]

/-- The placeholder is released exactly once along every path of the LLM
query branch. -/
theorem llmPath_released (cfg : Config) (env : Env) (c : Ctr)
    (q chan tgt ots t0 : String) (sug : Option String)
    (ht0 : t0 ≠ "") (hchan : chan ≠ "") :
    releasedOnce t0 (llmPath cfg env c q chan tgt ots t0 sug).1 = true := by
  unfold llmPath releasedOnce
  rcases hres : env.resolveWs sug with _ | w
  · simp [hres, List.filter_append, isPlacEv, isBrainUpd, oops_not_brain,
      fallbackCatch_plac_some t0 chan ht0 hchan]
  · by_cases hw : w = ""
    · simp [hres, hw, List.filter_append, isPlacEv, isBrainUpd, oops_not_brain,
        fallbackCatch_plac_some t0 chan ht0 hchan]
    · simp only [hres, hw, ne_eq, not_false_eq_true, if_true, reduceIte]
      rcases hm : env.mapping with _ | m
      · rcases hnew : env.newThreadRes w with _ | t
        · simp [hnew, List.filter_append, isPlacEv, isBrainUpd, oops_not_brain,
            fallbackCatch_plac_some t0 chan ht0 hchan]
        · by_cases htt : t = ""
          · simp [hnew, htt, List.filter_append, isPlacEv, isBrainUpd, oops_not_brain,
              fallbackCatch_plac_some t0 chan ht0 hchan]
          · simp only [hnew, htt, ne_eq, not_false_eq_true, if_true, reduceIte]
            rcases hqr : env.queryRes with m2 | raw
            · simp [hqr, List.filter_append, isPlacEv, isBrainUpd, oops_not_brain,
                brain_starts, fallbackCatch_plac_some t0 chan ht0 hchan,
                updODT_plac_upd t0 chan ht0 hchan]
            · rcases raw with _ | sr
              · simp only [hqr, reduceIte, doPost_fst, doPost_res, doPost_ctr]
                rcases hpr : env.postRes ((updODT env (updODT env c (some t0) chan
                    (some (brainTextOf w))).2 (some t0) chan none).2).post with
                  tsv | ⟨k2, mv2⟩ <;>
                simp [hpr, List.filter_append, isPlacEv, isBrainUpd, brain_starts,
                  updODT_plac_upd t0 chan ht0 hchan, updODT_plac_del t0 chan ht0 hchan,
                  fallbackCatchNone_plac t0]
              · by_cases htr : trimS sr = ""
                · simp only [hqr, htr, if_true, reduceIte, doPost_fst, doPost_res,
                    doPost_ctr]
                  rcases hpr : env.postRes ((updODT env (updODT env c (some t0) chan
                    (some (brainTextOf w))).2 (some t0) chan none).2).post with
                  tsv | ⟨k2, mv2⟩ <;>
                simp [hpr, List.filter_append, isPlacEv, isBrainUpd, brain_starts,
                  updODT_plac_upd t0 chan ht0 hchan, updODT_plac_del t0 chan ht0 hchan,
                  fallbackCatchNone_plac t0]
                · simp [hqr, htr, List.filter_append, isPlacEv, isBrainUpd,
                    brain_starts, updODT_plac_upd t0 chan ht0 hchan,
                    updODT_plac_del t0 chan ht0 hchan, processReply_plac t0]
      · by_cases hmw : m.wsSlug = w
        · simp only [hm, hmw, if_true, reduceIte]
          rcases hqr : env.queryRes with m2 | raw
          · simp [hqr, List.filter_append, isPlacEv, isBrainUpd, oops_not_brain,
              brain_starts, fallbackCatch_plac_some t0 chan ht0 hchan,
              updODT_plac_upd t0 chan ht0 hchan]
          · rcases raw with _ | sr
            · simp only [hqr, reduceIte, doPost_fst, doPost_res, doPost_ctr]
              rcases hpr : env.postRes ((updODT env (updODT env c (some t0) chan
                  (some (brainTextOf w))).2 (some t0) chan none).2).post with
                tsv | ⟨k2, mv2⟩ <;>
              simp [hpr, List.filter_append, isPlacEv, isBrainUpd, brain_starts,
                updODT_plac_upd t0 chan ht0 hchan, updODT_plac_del t0 chan ht0 hchan,
                fallbackCatchNone_plac t0]
            · by_cases htr : trimS sr = ""
              · simp only [hqr, htr, if_true, reduceIte, doPost_fst, doPost_res,
                  doPost_ctr]
                rcases hpr : env.postRes ((updODT env (updODT env c (some t0) chan
                  (some (brainTextOf w))).2 (some t0) chan none).2).post with
                tsv | ⟨k2, mv2⟩ <;>
              simp [hpr, List.filter_append, isPlacEv, isBrainUpd, brain_starts,
                updODT_plac_upd t0 chan ht0 hchan, updODT_plac_del t0 chan ht0 hchan,
                fallbackCatchNone_plac t0]
              · simp [hqr, htr, List.filter_append, isPlacEv, isBrainUpd,
                  brain_starts, updODT_plac_upd t0 chan ht0 hchan,
                  updODT_plac_del t0 chan ht0 hchan, processReply_plac t0]
        · simp only [hm, hmw, if_false, reduceIte]
          rcases hnew : env.newThreadRes w with _ | t
          · simp [hnew, List.filter_append, isPlacEv, isBrainUpd, oops_not_brain,
              fallbackCatch_plac_some t0 chan ht0 hchan]
          · by_cases htt : t = ""
            · simp [hnew, htt, List.filter_append, isPlacEv, isBrainUpd, oops_not_brain,
                fallbackCatch_plac_some t0 chan ht0 hchan]
            · simp only [hnew, htt, ne_eq, not_false_eq_true, if_true, reduceIte]
              rcases hqr : env.queryRes with m2 | raw
              · simp [hqr, List.filter_append, isPlacEv, isBrainUpd, oops_not_brain,
                  brain_starts, fallbackCatch_plac_some t0 chan ht0 hchan,
                  updODT_plac_upd t0 chan ht0 hchan]
              · rcases raw with _ | sr
                · simp only [hqr, reduceIte, doPost_fst, doPost_res, doPost_ctr]
                  rcases hpr : env.postRes ((updODT env (updODT env c (some t0) chan
                      (some (brainTextOf w))).2 (some t0) chan none).2).post with
                    tsv | ⟨k2, mv2⟩ <;>
                  simp [hpr, List.filter_append, isPlacEv, isBrainUpd, brain_starts,
                    updODT_plac_upd t0 chan ht0 hchan, updODT_plac_del t0 chan ht0 hchan,
                    fallbackCatchNone_plac t0]
                · by_cases htr : trimS sr = ""
                  · simp only [hqr, htr, if_true, reduceIte, doPost_fst, doPost_res,
                      doPost_ctr]
                    rcases hpr : env.postRes ((updODT env (updODT env c (some t0) chan
                      (some (brainTextOf w))).2 (some t0) chan none).2).post with
                    tsv | ⟨k2, mv2⟩ <;>
                  simp [hpr, List.filter_append, isPlacEv, isBrainUpd, brain_starts,
                    updODT_plac_upd t0 chan ht0 hchan, updODT_plac_del t0 chan ht0 hchan,
                    fallbackCatchNone_plac t0]
                  · simp [hqr, htr, List.filter_append, isPlacEv, isBrainUpd,
                      brain_starts, updODT_plac_upd t0 chan ht0 hchan,
                      updODT_plac_del t0 chan ht0 hchan, processReply_plac t0]

/-- Claim C4: on the non-command branch the thinking placeholder, once
posted, is released exactly once on every exit path: its update/delete
events consist of an optional progress ("thinking") update followed by
exactly one final update or one deletion, and nothing after that — in
particular it is never updated to a final message and deleted afterwards.
(The stub replies of the intent switch are unreachable: the `intentResult`
read on line 266 throws first, so such runs take the error path, which
updates the placeholder exactly once.) -/
theorem claim_C4 (cfg : Config) (env : Env) (ev : SlackEvent) (t0 : String)
    (hq : cleanedQueryOf cfg ev ≠ "")
    (hdel : startsWithS (lowerS (cleanedQueryOf cfg ev)) "#delete_last_message" = false)
    (hpost : env.postRes 0 = .ok (some t0)) (ht0 : t0 ≠ "")
    (hgh : isPotentialGh cfg (cleanedQueryOf cfg ev) = false)
    (hchan : ev.channel ≠ "") :
    releasedOnce t0 (run cfg env ev) = true := by
  rw [run_fallback cfg env ev t0 hq hdel hpost ht0 hgh]
  unfold fallback
  by_cases hroute : routingTriggers cfg (detectIntentAndWorkspace env) = true
  · simp [hroute, releasedOnce, List.filter_append, isPlacEv, isBrainUpd,
      oops_not_brain, fallbackCatch_plac_some t0 ev.channel ht0 hchan]
  · have hllm := llmPath_released cfg env ⟨1, 0, 0⟩ (cleanedQueryOf cfg ev)
      ev.channel (replyTargetOf ev) ev.ts t0
      (detectIntentAndWorkspace env).suggestedWorkspace ht0 hchan
    simp only [hroute, if_false, Bool.false_eq_true, reduceIte]
    simpa [releasedOnce, isPlacEv] using hllm

/-- Witness for C4 on a benign full run: the placeholder events are the
progress update followed by the deletion. -/
theorem claim_C4_witness :
    "T1" ≠ "" ∧
    releasedOnce "T1" (run cfgA envA (evOf "hi there")) = true :=
  ⟨by decide, claim_C4 cfgA envA (evOf "hi there") "T1" (by decide) (by decide)
    rfl (by decide) (by decide) (by decide)⟩

theorem mem_of_filter_eq_single {l : List Ev} {p : Ev → Bool} {x : Ev}
    (h : l.filter p = [x]) : x ∈ l :=
  List.mem_of_mem_filter (h ▸ List.mem_singleton_self x)

theorem releaseMatch_capture_ne {pfx q r : String}
    (h : releaseMatch pfx q = some r) : r ≠ "" := by
  obtain ⟨r0, x, h0, hkw⟩ := releaseMatch_kw h
  simp only [releaseMatch, h0, hkw] at h
  by_cases hwges : List.takeWhile isWsC x = []
  · rw [if_pos hwges] at h; cases h
  · rw [if_neg hwges] at h
    by_cases hs1 : List.takeWhile isWordDotC (List.dropWhile isWsC x) = []
    · rw [if_pos hs1] at h; cases h
    · rw [if_neg hs1] at h
      split at h
      · split at h
        · cases h
          intro hcon
          exact absurd (congrArg String.data hcon) (by simp)
        · cases h
      · split at h
        · cases h
          intro hcon
          exact hs1 (congrArg String.data hcon)
        · cases h

theorem apiMatch_capture_ne {pfx q a : String}
    (h : apiMatch pfx q = some a) : a ≠ "" := by
  obtain ⟨r0, x, h0, hkw⟩ := apiMatch_kw h
  simp only [apiMatch, h0, hkw] at h
  rcases hp : promptTail x with _ | op
  · rw [hp] at h; cases h
  · rcases op with _ | pp
    · rw [hp] at h; cases h
    · rw [hp] at h
      cases h
      exact promptTail_capture_ne hp

theorem updODT_exec (env : Env) (c : Ctr) (ts : Option String) (chan : String)
    (u : Option String) : (updODT env c ts chan u).1.filter isExecEv = [] := by
  refine filter_eq_nil_of_kinds (updODT_kind env c ts chan u) ?_
  intro e he
  cases e <;> simp_all [evKind, isExecEv]

theorem issueCatch_exec (env : Env) (c : Ctr) (chan ts m : String) :
    (issueCatch env c chan ts m).1.filter isExecEv = [] := by
  refine filter_eq_nil_of_kinds (issueCatch_kind env c chan ts m) ?_
  intro e he
  cases e <;> simp_all [evKind, isExecEv]

theorem issueFail_mem (env : Env) (c : Ctr) (chan ts msg : String) (pre : List Ev) :
    ∀ e ∈ (issueFail env c chan ts msg pre).1,
      e ∈ pre ∨ evKind e ∈ ([0, 2, 3, 4] : List Nat) := by
  intro e he
  unfold issueFail at he
  rcases List.mem_append.mp he with h | h
  · exact Or.inl h
  · exact Or.inr (issueCatch_kind env c chan ts msg e h)

theorem issueCreate_mem (env : Env) (c : Ctr) (chan tgt ts ws owner repo : String)
    (num : Nat) (up : Option String) (pre : List Ev) :
    ∀ e ∈ (issueCreate env c chan tgt ts ws owner repo num up pre).1,
      e ∈ pre ∨ evKind e ∈ ([13, 14, 8, 0, 2, 3, 4] : List Nat) := by
  intro e he
  unfold issueCreate at he
  have hfail : ∀ m2 (pre2 : List Ev),
      e ∈ (issueFail env c chan ts m2 pre2).1 →
      e ∈ pre2 ∨ evKind e ∈ ([0, 2, 3, 4] : List Nat) :=
    fun m2 pre2 hh => issueFail_mem env c chan ts m2 pre2 e hh
  split at he
  · split at he
    · simp only [List.mem_append, List.mem_cons, List.not_mem_nil, or_false] at he
      rcases he with h | h | h | h
      · exact Or.inl h
      all_goals subst h; simp [evKind]
    · rcases hfail _ _ he with h | h
      · rcases List.mem_append.mp h with h2 | h2
        · exact Or.inl h2
        · simp only [List.mem_cons, List.not_mem_nil, or_false] at h2
          subst h2; simp [evKind]
      · simp at h; rcases h with h | h | h | h <;> simp [h]
  · rcases hfail _ _ he with h | h
    · rcases List.mem_append.mp h with h2 | h2
      · exact Or.inl h2
      · simp only [List.mem_cons, List.not_mem_nil, or_false] at h2
        subst h2; simp [evKind]
    · simp at h; rcases h with h | h | h | h <;> simp [h]

theorem issueNoExplicit_mem (env : Env) (c : Ctr) (chan tgt ts owner repo : String)
    (num : Nat) (up : Option String) (dg : List Ev) :
    ∀ e ∈ (issueNoExplicit env c chan tgt ts owner repo num up dg).1,
      e ∈ dg ∨ evKind e ∈ ([11, 13, 14, 8, 0, 2, 3, 4] : List Nat) := by
  intro e he
  unfold issueNoExplicit at he
  have hstep : ∀ w2 (pre2 : List Ev),
      e ∈ (issueCreate env c chan tgt ts w2 owner repo num up pre2).1 →
      e ∈ pre2 ∨ evKind e ∈ ([13, 14, 8, 0, 2, 3, 4] : List Nat) :=
    fun w2 pre2 hh => issueCreate_mem env c chan tgt ts w2 owner repo num up pre2 e hh
  have hfail : ∀ m2 (pre2 : List Ev),
      e ∈ (issueFail env c chan ts m2 pre2).1 →
      e ∈ pre2 ∨ evKind e ∈ ([0, 2, 3, 4] : List Nat) :=
    fun m2 pre2 hh => issueFail_mem env c chan ts m2 pre2 e hh
  have hpre : ∀ (h2 : e ∈ dg ++ [Ev.resolveWs none]),
      e ∈ dg ∨ evKind e ∈ ([11, 13, 14, 8, 0, 2, 3, 4] : List Nat) := by
    intro h2
    rcases List.mem_append.mp h2 with h3 | h3
    · exact Or.inl h3
    · simp only [List.mem_cons, List.not_mem_nil, or_false] at h3
      subst h3; simp [evKind]
  split at he
  · split at he
    · rcases hstep _ _ he with h | h
      · exact hpre h
      · simp at h
        rcases h with h | h | h | h | h | h | h <;> simp [h]
    · rcases hfail _ _ he with h | h
      · exact hpre h
      · simp at h
        rcases h with h | h | h | h <;> simp [h]
  · rcases hfail _ _ he with h | h
    · exact hpre h
    · simp at h
      rcases h with h | h | h | h <;> simp [h]

theorem issueStage_kind (cfg : Config) (env : Env) (c : Ctr) (q chan tgt ts : String) :
    ∀ e ∈ (issueStage cfg env c q chan tgt ts).1,
      evKind e ∈ ([12, 11, 13, 14, 8, 0, 2, 3, 4] : List Nat) := by
  intro e he
  have hdg : e ∈ ([Ev.getMapping chan tgt] : List Ev) →
      evKind e ∈ ([12, 11, 13, 14, 8, 0, 2, 3, 4] : List Nat) := by
    intro h2
    simp only [List.mem_cons, List.not_mem_nil, or_false] at h2
    subst h2; simp [evKind]
  have hfail : ∀ msg, e ∈ (issueFail env c chan ts msg [Ev.getMapping chan tgt]).1 →
      evKind e ∈ ([12, 11, 13, 14, 8, 0, 2, 3, 4] : List Nat) := by
    intro msg h2
    rcases issueFail_mem env c chan ts msg _ e h2 with h | h
    · exact hdg h
    · simp at h; rcases h with h | h | h | h <;> simp [h]
  have hcre : ∀ w ow rp n up,
      e ∈ (issueCreate env c chan tgt ts w ow rp n up [Ev.getMapping chan tgt]).1 →
      evKind e ∈ ([12, 11, 13, 14, 8, 0, 2, 3, 4] : List Nat) := by
    intro w ow rp n up h2
    rcases issueCreate_mem env c chan tgt ts _ _ _ _ _ _ e h2 with h | h
    · exact hdg h
    · simp at h; rcases h with h | h | h | h | h | h | h <;> simp [h]
  have hnoe : ∀ ow rp n up,
      e ∈ (issueNoExplicit env c chan tgt ts ow rp n up [Ev.getMapping chan tgt]).1 →
      evKind e ∈ ([12, 11, 13, 14, 8, 0, 2, 3, 4] : List Nat) := by
    intro ow rp n up h2
    rcases issueNoExplicit_mem env c chan tgt ts _ _ _ _ _ e h2 with h | h
    · exact hdg h
    · simp at h; rcases h with h | h | h | h | h | h | h | h <;> simp [h]
  rcases him : issueMatch cfg.commandPfx q with _ | cap
  · simp [issueStage, him] at he
  · simp only [issueStage, him] at he
    by_cases hd : cap.digits = []
    · rw [if_pos hd] at he
      rcases List.mem_append.mp he with h | h
      · simp only [List.mem_cons, List.not_mem_nil, or_false] at h
        subst h; simp [evKind]
      · have := updODT_kind env c (some ts) chan _ e h
        simp at this
        rcases this with h2 | h2 | h2 | h2 <;> simp [h2]
    · rw [if_neg hd] at he
      rcases hm : env.mapping with _ | m
      · simp only [hm] at he
        rcases hws : cap.wsSlug with _ | sl
        · simp only [hws] at he
          exact hnoe _ _ _ _ he
        · simp only [hws] at he
          by_cases hs : sl ≠ ""
          · rw [if_pos hs] at he
            exact hcre _ _ _ _ _ he
          · rw [if_neg hs] at he
            exact hnoe _ _ _ _ he
      · simp only [hm] at he
        by_cases ht : m.threadSlug ≠ ""
        · rw [if_pos ht] at he
          by_cases hw : (match cap.wsSlug with
              | some sl => if sl ≠ "" then sl else m.wsSlug
              | none => m.wsSlug) ≠ ""
          · rw [if_pos hw] at he
            rcases List.mem_append.mp he with h | h
            · exact hdg h
            · simp only [List.mem_cons, List.not_mem_nil, or_false] at h
              subst h; simp [evKind]
          · rw [if_neg hw] at he
            exact hfail _ he
        · rw [if_neg ht] at he
          by_cases hw : (match cap.wsSlug with
              | some sl => if sl ≠ "" then sl else m.wsSlug
              | none => m.wsSlug) ≠ ""
          · rw [if_pos hw] at he
            exact hcre _ _ _ _ _ he
          · rw [if_neg hw] at he
            exact hfail _ he

theorem prStage_kind (cfg : Config) (env : Env) (c : Ctr) (q chan ts : String) :
    ∀ e ∈ (prStage cfg env c q chan ts).1,
      evKind e ∈ ([7, 0, 2, 3, 4] : List Nat) := by
  intro e he
  unfold prStage at he
  split at he
  · simp at he
  · split at he
    · simp only [List.mem_cons, List.not_mem_nil, or_false] at he
      subst he; simp [evKind]
    · rcases List.mem_append.mp he with h | h
      · simp_all [evKind]
      · have := updODT_kind env c (some ts) chan _ e h
        simp at this
        rcases this with h' | h' | h' | h' <;> simp [h']

theorem ghTail_kind (cfg : Config) (env : Env) (q chan tgt ts : String)
    (l1 : List Ev) (c1 : Ctr) (b1 : Bool)
    (h1 : ∀ e ∈ l1, evKind e ∈ ([0, 2, 3, 4, 6, 7, 8, 9, 11, 12, 13, 14] : List Nat)) :
    ∀ e ∈ (ghTail cfg env (l1, c1, b1) q chan tgt ts).1,
      evKind e ∈ ([0, 2, 3, 4, 6, 7, 8, 9, 11, 12, 13, 14] : List Nat) := by
  intro e he
  have hupd : ∀ (c2 : Ctr), e ∈ (updODT env c2 (some ts) chan (some unknownCmdText)).1 →
      evKind e ∈ ([0, 2, 3, 4, 6, 7, 8, 9, 11, 12, 13, 14] : List Nat) := by
    intro c2 hh
    have := updODT_kind env c2 (some ts) chan (some unknownCmdText) e hh
    simp at this
    rcases this with h | h | h | h <;> simp [h]
  have hpr : ∀ (c2 : Ctr) (l2 : List Ev) (cb : Ctr × Bool),
      prStage cfg env c2 q chan ts = (l2, cb) → e ∈ l2 →
      evKind e ∈ ([0, 2, 3, 4, 6, 7, 8, 9, 11, 12, 13, 14] : List Nat) := by
    intro c2 l2 cb hp hh
    have := prStage_kind cfg env c2 q chan ts e (by rw [hp]; exact hh)
    simp at this
    rcases this with h | h | h | h | h <;> simp [h]
  have hiss : ∀ (c2 : Ctr) (l3 : List Ev) (cb : Ctr × Bool),
      issueStage cfg env c2 q chan tgt ts = (l3, cb) → e ∈ l3 →
      evKind e ∈ ([0, 2, 3, 4, 6, 7, 8, 9, 11, 12, 13, 14] : List Nat) := by
    intro c2 l3 cb hi hh
    have := issueStage_kind cfg env c2 q chan tgt ts e (by rw [hi]; exact hh)
    simp at this
    rcases this with h | h | h | h | h | h | h | h | h <;> simp [h]
  rcases b1 with _ | _
  · rcases hp : prStage cfg env c1 q chan ts with ⟨l2, c2, b2⟩
    rcases b2 with _ | _
    · rcases hi : issueStage cfg env c2 q chan tgt ts with ⟨l3, c3, b3⟩
      rcases b3 with _ | _
      · rcases ha : apiMatch cfg.commandPfx q with _ | aq
        · simp [ghTail, hp, hi, ha] at he
          rcases he with h | h | h | h | h
          · exact h1 e h
          · exact hpr c1 l2 (c2, false) hp h
          · exact hiss c2 l3 (c3, false) hi h
          · subst h; simp [evKind]
          · exact hupd _ h
        · by_cases haq : aq ≠ ""
          · rcases hae : env.apiExecRes with _ | _
            · simp [ghTail, hp, hi, ha, haq, hae] at he
              rcases he with h | h | h | h | h | h
              · exact h1 e h
              · exact hpr c1 l2 (c2, false) hp h
              · exact hiss c2 l3 (c3, false) hi h
              · subst h; simp [evKind]
              · subst h; simp [evKind]
              · exact hupd _ h
            · simp [ghTail, hp, hi, ha, haq, hae] at he
              rcases he with h | h | h | h
              · exact h1 e h
              · exact hpr c1 l2 (c2, false) hp h
              · exact hiss c2 l3 (c3, false) hi h
              · subst h; simp [evKind]
          · rw [not_not] at haq
            simp [ghTail, hp, hi, ha, haq] at he
            rcases he with h | h | h | h | h
            · exact h1 e h
            · exact hpr c1 l2 (c2, false) hp h
            · exact hiss c2 l3 (c3, false) hi h
            · subst h; simp [evKind]
            · exact hupd _ h
      · simp [ghTail, hp, hi] at he
        rcases he with h | h | h
        · exact h1 e h
        · exact hpr c1 l2 (c2, false) hp h
        · exact hiss c2 l3 (c3, true) hi h
    · simp [ghTail, hp] at he
      rcases he with h | h
      · exact h1 e h
      · exact hpr c1 l2 (c2, true) hp h
  · simp [ghTail] at he
    exact h1 e he

theorem ghBranch_kind (cfg : Config) (env : Env) (c : Ctr) (q chan tgt ts : String) :
    ∀ e ∈ (ghBranch cfg env c q chan tgt ts).1,
      evKind e ∈ ([0, 2, 3, 4, 6, 7, 8, 9, 11, 12, 13, 14] : List Nat) := by
  intro e he
  have hupd : ∀ (u : Option String), e ∈ (updODT env c (some ts) chan u).1 →
      evKind e ∈ ([0, 2, 3, 4, 6, 7, 8, 9, 11, 12, 13, 14] : List Nat) := by
    intro u hh
    have := updODT_kind env c (some ts) chan u e hh
    simp at this
    rcases this with h | h | h | h <;> simp [h]
  rcases hgt : cfg.githubToken with _ | _
  · simp only [ghBranch, hgt, Bool.not_false, if_true] at he
    exact hupd _ he
  · rcases hoc : cfg.hasOctokit with _ | _
    · simp only [ghBranch, hgt, hoc, Bool.not_false, Bool.not_true, Bool.false_eq_true,
        if_false, if_true] at he
      exact hupd _ he
    · simp only [ghBranch, hgt, hoc, Bool.not_true, Bool.false_eq_true, if_false] at he
      rcases hrel : releaseMatch cfg.commandPfx q with _ | rid
      · simp only [hrel] at he
        exact ghTail_kind cfg env q chan tgt ts [] c false (by simp) e he
      · simp only [hrel] at he
        have hr : rid ≠ "" := releaseMatch_capture_ne hrel
        rw [if_pos hr] at he
        refine ghTail_kind cfg env q chan tgt ts [Ev.execRelease rid] c env.releaseExecRes
          ?_ e he
        intro x hx
        simp only [List.mem_cons, List.not_mem_nil, or_false] at hx
        subst hx; simp [evKind]

theorem prStage_none (cfg : Config) (env : Env) (c : Ctr) (q chan ts : String)
    (h : prMatch cfg.commandPfx q = none) :
    prStage cfg env c q chan ts = ([], c, false) := by
  simp [prStage, h]

theorem issueStage_none (cfg : Config) (env : Env) (c : Ctr) (q chan tgt ts : String)
    (h : issueMatch cfg.commandPfx q = none) :
    issueStage cfg env c q chan tgt ts = ([], c, false) := by
  simp [issueStage, h]

theorem ghTail_exec_filter (cfg : Config) (env : Env) (q chan tgt ts : String)
    (l1 : List Ev) (c1 : Ctr) (b1 : Bool)
    (hpm : prMatch cfg.commandPfx q = none)
    (him : issueMatch cfg.commandPfx q = none)
    (ham : apiMatch cfg.commandPfx q = none) :
    (ghTail cfg env (l1, c1, b1) q chan tgt ts).1.filter isExecEv =
      l1.filter isExecEv := by
  rcases b1 with _ | _ <;>
    simp [ghTail, prStage_none cfg env c1 q chan ts hpm,
      issueStage_none cfg env c1 q chan tgt ts him, ham,
      List.filter_append, updODT_exec, isExecEv]

theorem ghTail_query_filter (cfg : Config) (env : Env) (q chan tgt ts : String)
    (l1 : List Ev) (c1 : Ctr) (b1 : Bool)
    (h1 : ∀ e ∈ l1, evKind e ∈ ([0, 2, 3, 4, 6, 7, 8, 9, 11, 12, 13, 14] : List Nat)) :
    (ghTail cfg env (l1, c1, b1) q chan tgt ts).1.filter isQueryEv = [] := by
  refine filter_eq_nil_of_kinds (ghTail_kind cfg env q chan tgt ts l1 c1 b1 h1) ?_
  intro e he
  cases e <;> simp_all [evKind, isQueryEv]

theorem updODTCatch_unknown (t0 : String) (b : Bool) (k m : String) :
    (updODTCatch b k m).filter (isUnknownUpd t0) = [] := by
  refine filter_eq_nil_of_kinds (updODTCatch_kind b k m) ?_
  intro e he
  cases e <;> simp_all [evKind, isUnknownUpd]

theorem updODT_unknown_filter (t0 chan : String) (ht0 : t0 ≠ "") (hchan : chan ≠ "")
    (env : Env) (c : Ctr) :
    (updODT env c (some t0) chan (some unknownCmdText)).1.filter (isUnknownUpd t0) =
      [Ev.update chan t0 unknownCmdText] := by
  unfold updODT
  rw [show truthyO (some t0) = true from by simp [truthyO, ht0]]
  simp only [Bool.not_true, Bool.false_eq_true, if_false, if_neg hchan]
  rcases hu : env.updateRes c.upd with tsv | ⟨k, mv⟩ <;>
    simp [hu, List.filter_append, isUnknownUpd, updODTCatch_unknown]

theorem updODT_upd_mem (t0 chan : String) (ht0 : t0 ≠ "") (hchan : chan ≠ "")
    (env : Env) (c : Ctr) (txt : String) :
    Ev.update chan t0 txt ∈ (updODT env c (some t0) chan (some txt)).1 :=
  mem_of_filter_eq_single (updODT_plac_upd t0 chan ht0 hchan env c txt)

theorem ghTail_unknown_filter (cfg : Config) (env : Env) (q chan tgt t0 : String)
    (c1 : Ctr) (ht0 : t0 ≠ "") (hchan : chan ≠ "")
    (hpm : prMatch cfg.commandPfx q = none)
    (him : issueMatch cfg.commandPfx q = none)
    (ham : apiMatch cfg.commandPfx q = none) :
    (ghTail cfg env ([], c1, false) q chan tgt t0).1.filter (isUnknownUpd t0) =
      [Ev.update chan t0 unknownCmdText] := by
  simp [ghTail, prStage_none cfg env c1 q chan t0 hpm,
    issueStage_none cfg env c1 q chan tgt t0 him, ham,
    List.filter_append, isUnknownUpd,
    updODT_unknown_filter t0 chan ht0 hchan env c1]

theorem ghTail_exec_after_pr (cfg : Config) (env : Env) (q chan tgt ts : String)
    (c1 c2 : Ctr) (l2 : List Ev) (b2 : Bool)
    (hps : prStage cfg env c1 q chan ts = (l2, c2, b2))
    (him : issueMatch cfg.commandPfx q = none)
    (ham : apiMatch cfg.commandPfx q = none) :
    (ghTail cfg env ([], c1, false) q chan tgt ts).1.filter isExecEv =
      l2.filter isExecEv := by
  rcases b2 with _ | _ <;>
    simp [ghTail, hps, issueStage_none cfg env c2 q chan tgt ts him, ham,
      List.filter_append, updODT_exec, isExecEv]

theorem ghTail_mem_pr (cfg : Config) (env : Env) (q chan tgt ts : String)
    (c1 c2 : Ctr) (l2 : List Ev)
    (hps : prStage cfg env c1 q chan ts = (l2, c2, true)) :
    ∀ e ∈ l2, e ∈ (ghTail cfg env ([], c1, false) q chan tgt ts).1 := by
  intro e he
  simp [ghTail, hps]
  exact he

theorem ghTail_exec_after_issue (cfg : Config) (env : Env) (q chan tgt ts : String)
    (c1 c2 : Ctr) (l3 : List Ev) (b3 : Bool)
    (hpm : prMatch cfg.commandPfx q = none)
    (his : issueStage cfg env c1 q chan tgt ts = (l3, c2, b3))
    (ham : apiMatch cfg.commandPfx q = none) :
    (ghTail cfg env ([], c1, false) q chan tgt ts).1.filter isExecEv =
      l3.filter isExecEv := by
  rcases b3 with _ | _ <;>
    simp [ghTail, prStage_none cfg env c1 q chan ts hpm, his, ham,
      List.filter_append, updODT_exec, isExecEv]

theorem ghTail_mem_issue (cfg : Config) (env : Env) (q chan tgt ts : String)
    (c1 c2 : Ctr) (l3 : List Ev) (b3 : Bool)
    (hpm : prMatch cfg.commandPfx q = none)
    (his : issueStage cfg env c1 q chan tgt ts = (l3, c2, b3)) :
    ∀ e ∈ l3, e ∈ (ghTail cfg env ([], c1, false) q chan tgt ts).1 := by
  intro e he
  rcases b3 with _ | _
  · rcases ha2 : apiMatch cfg.commandPfx q with _ | aq
    · simp [ghTail, prStage_none cfg env c1 q chan ts hpm, his, ha2]
      simp [he]
    · by_cases haq : aq ≠ ""
      · rcases hae : env.apiExecRes with _ | _ <;>
          simp [ghTail, prStage_none cfg env c1 q chan ts hpm, his, ha2, haq, hae] <;>
          simp [he]
      · rw [not_not] at haq
        simp [ghTail, prStage_none cfg env c1 q chan ts hpm, his, ha2, haq]
        simp [he]
  · simp [ghTail, prStage_none cfg env c1 q chan ts hpm, his]
    simp [he]

theorem ghTail_exec_api (cfg : Config) (env : Env) (q chan tgt ts : String)
    (c1 : Ctr) (aq : String)
    (hpm : prMatch cfg.commandPfx q = none)
    (him : issueMatch cfg.commandPfx q = none)
    (ham : apiMatch cfg.commandPfx q = some aq) (haq : aq ≠ "") :
    (ghTail cfg env ([], c1, false) q chan tgt ts).1.filter isExecEv =
      [Ev.execApi aq] := by
  rcases hae : env.apiExecRes with _ | _ <;>
    simp [ghTail, prStage_none cfg env c1 q chan ts hpm,
      issueStage_none cfg env c1 q chan tgt ts him, ham, haq, hae,
      List.filter_append, updODT_exec, isExecEv]

theorem prStage_valid (cfg : Config) (env : Env) (c : Ctr) (q chan ts : String)
    (cap : PrCap) (hpm : prMatch cfg.commandPfx q = some cap)
    (hv : (cap.owner ≠ "" && cap.repo ≠ "" && cap.digits ≠ [] && cap.wsSlug ≠ "") = true) :
    prStage cfg env c q chan ts =
      ([Ev.execPrReview cap.owner cap.repo (digitsToNat cap.digits) cap.wsSlug],
       c, env.prExecRes) := by
  simp only [prStage, hpm]
  rw [if_pos hv]

theorem prStage_invalid (cfg : Config) (env : Env) (c : Ctr) (q chan ts : String)
    (cap : PrCap) (hpm : prMatch cfg.commandPfx q = some cap)
    (hv : (cap.owner ≠ "" && cap.repo ≠ "" && cap.digits ≠ [] && cap.wsSlug ≠ "") = false) :
    prStage cfg env c q chan ts =
      ([Ev.log "[Msg Handler] Invalid PR Review params"] ++
        (updODT env c (some ts) chan (some prFormatErrText)).1,
       (updODT env c (some ts) chan (some prFormatErrText)).2, true) := by
  simp only [prStage, hpm]
  rw [if_neg (by rw [hv]; exact Bool.false_ne_true)]

theorem issueStage_invalid (cfg : Config) (env : Env) (c : Ctr) (q chan tgt ts : String)
    (cap : IssueCap) (him : issueMatch cfg.commandPfx q = some cap)
    (hd : cap.digits = []) :
    issueStage cfg env c q chan tgt ts =
      ([Ev.log "[Msg Handler] Invalid Issue Analysis number"] ++
        (updODT env c (some ts) chan (some issueFormatErrText)).1,
       (updODT env c (some ts) chan (some issueFormatErrText)).2, true) := by
  simp [issueStage, him, hd]

theorem issueFail_pre_mem (env : Env) (c : Ctr) (chan ts msg : String) (pre : List Ev) :
    ∀ e ∈ pre, e ∈ (issueFail env c chan ts msg pre).1 := by
  intro e he
  exact List.mem_append_left _ he

theorem issueCreate_pre_mem (env : Env) (c : Ctr) (chan tgt ts ws : String)
    (ow rp : String) (n : Nat) (up : Option String) (pre : List Ev) :
    ∀ e ∈ pre, e ∈ (issueCreate env c chan tgt ts ws ow rp n up pre).1 := by
  intro e he
  rcases hn : env.newThreadRes ws with _ | t
  · simp only [issueCreate, hn]
    exact issueFail_pre_mem env c chan ts _ _ e (List.mem_append_left _ he)
  · simp only [issueCreate, hn]
    by_cases htt : t ≠ ""
    · rw [if_pos htt]
      exact List.mem_append_left _ he
    · rw [if_neg htt]
      exact issueFail_pre_mem env c chan ts _ _ e (List.mem_append_left _ he)

theorem issueNoExplicit_pre_mem (env : Env) (c : Ctr) (chan tgt ts : String)
    (ow rp : String) (n : Nat) (up : Option String) (dg : List Ev) :
    ∀ e ∈ dg, e ∈ (issueNoExplicit env c chan tgt ts ow rp n up dg).1 := by
  intro e he
  rcases hw : env.resolveWs none with _ | w
  · simp only [issueNoExplicit, hw]
    exact issueFail_pre_mem env c chan ts _ _ e (List.mem_append_left _ he)
  · simp only [issueNoExplicit, hw]
    by_cases hww : w ≠ ""
    · rw [if_pos hww]
      exact issueCreate_pre_mem env c chan tgt ts _ _ _ _ _ _ e (List.mem_append_left _ he)
    · rw [if_neg hww]
      exact issueFail_pre_mem env c chan ts _ _ e (List.mem_append_left _ he)

theorem issueStage_getMapping (cfg : Config) (env : Env) (c : Ctr) (q chan tgt ts : String)
    (cap : IssueCap) (him : issueMatch cfg.commandPfx q = some cap)
    (hd : cap.digits ≠ []) :
    Ev.getMapping chan tgt ∈ (issueStage cfg env c q chan tgt ts).1 := by
  have hdgmem : Ev.getMapping chan tgt ∈ ([Ev.getMapping chan tgt] : List Ev) := by simp
  simp only [issueStage, him]
  rw [if_neg hd]
  rcases hm : env.mapping with _ | m
  · simp only [hm]
    split
    · rename_i sl heq
      by_cases hs : sl ≠ ""
      · rw [if_pos hs]
        exact issueCreate_pre_mem env c chan tgt ts _ _ _ _ _ _ _ hdgmem
      · rw [if_neg hs]
        exact issueNoExplicit_pre_mem env c chan tgt ts _ _ _ _ _ _ hdgmem
    · exact issueNoExplicit_pre_mem env c chan tgt ts _ _ _ _ _ _ hdgmem
  · simp only [hm]
    by_cases ht : m.threadSlug ≠ ""
    · rw [if_pos ht]
      by_cases hw : (match cap.wsSlug with
          | some sl => if sl ≠ "" then sl else m.wsSlug
          | none => m.wsSlug) ≠ ""
      · rw [if_pos hw]
        exact List.mem_append_left _ hdgmem
      · rw [if_neg hw]
        exact issueFail_pre_mem env c chan ts _ _ _ hdgmem
    · rw [if_neg ht]
      by_cases hw : (match cap.wsSlug with
          | some sl => if sl ≠ "" then sl else m.wsSlug
          | none => m.wsSlug) ≠ ""
      · rw [if_pos hw]
        exact issueCreate_pre_mem env c chan tgt ts _ _ _ _ _ _ _ hdgmem
      · rw [if_neg hw]
        exact issueFail_pre_mem env c chan ts _ _ _ hdgmem

theorem issueStage_exec_issue (cfg : Config) (env : Env) (c : Ctr) (q chan tgt ts : String) :
    ∀ e ∈ (issueStage cfg env c q chan tgt ts).1,
      isExecEv e = true → isExecIssueEv e = true := by
  intro e he hex
  have := issueStage_kind cfg env c q chan tgt ts e he
  cases e <;> simp_all [evKind, isExecEv, isExecIssueEv]

theorem filter_cons_false {p : Ev → Bool} {a : Ev} {l : List Ev} (h : p a = false) :
    (a :: l).filter p = l.filter p := by
  simp [List.filter_cons, h]

theorem run_gh_filter (cfg : Config) (env : Env) (ev : SlackEvent) (t0 : String)
    (hq : cleanedQueryOf cfg ev ≠ "")
    (hdel : startsWithS (lowerS (cleanedQueryOf cfg ev)) "#delete_last_message" = false)
    (hpost : env.postRes 0 = .ok (some t0)) (ht0 : t0 ≠ "")
    (hgh : isPotentialGh cfg (cleanedQueryOf cfg ev) = true) (p : Ev → Bool)
    (hp : p (Ev.post ev.channel (replyTargetOf ev)
      ":hourglass_flowing_sand: Processing..." none) = false) :
    (run cfg env ev).filter p =
      (ghBranch cfg env ⟨1, 0, 0⟩ (cleanedQueryOf cfg ev) ev.channel (replyTargetOf ev)
        t0).1.filter p := by
  rw [run_gh cfg env ev t0 hq hdel hpost ht0 hgh]
  exact filter_cons_false hp

theorem run_gh_mem (cfg : Config) (env : Env) (ev : SlackEvent) (t0 : String)
    (hq : cleanedQueryOf cfg ev ≠ "")
    (hdel : startsWithS (lowerS (cleanedQueryOf cfg ev)) "#delete_last_message" = false)
    (hpost : env.postRes 0 = .ok (some t0)) (ht0 : t0 ≠ "")
    (hgh : isPotentialGh cfg (cleanedQueryOf cfg ev) = true) (e : Ev)
    (he : e ∈ (ghBranch cfg env ⟨1, 0, 0⟩ (cleanedQueryOf cfg ev) ev.channel
      (replyTargetOf ev) t0).1) : e ∈ run cfg env ev := by
  rw [run_gh cfg env ev t0 hq hdel hpost ht0 hgh]
  exact List.mem_cons_of_mem _ he

theorem ghBranch_eq_tail (cfg : Config) (env : Env) (c : Ctr) (q chan tgt ts : String)
    (htok : cfg.githubToken = true) (hoct : cfg.hasOctokit = true) :
    ghBranch cfg env c q chan tgt ts =
      ghTail cfg env
        (match releaseMatch cfg.commandPfx q with
         | some rid =>
           if rid ≠ "" then (([.execRelease rid] : List Ev), c, env.releaseExecRes)
           else (([] : List Ev), c, false)
         | none => (([] : List Ev), c, false))
        q chan tgt ts := by
  simp [ghBranch, htok, hoct]

/-- C1: for every cleaned message that begins with the command prefix (and
passes the GitHub configuration gates), the command grammars are attempted in
the fixed priority order release, PR-review, issue-analysis, generic-API, and
the first structural match wins: the executor-invocation trace contains
exactly the matched command's executor call; a structurally matched command
with malformed parameters produces a user-facing format error update and
invokes no executor; a prefix-bearing message matching no grammar produces
the unknown-command reply exactly once; and in every one of these cases no
LLM query call occurs. -/
theorem claim_C1 (cfg : Config) (env : Env) (ev : SlackEvent) (t0 : String)
    (hq : cleanedQueryOf cfg ev ≠ "")
    (hdel : startsWithS (lowerS (cleanedQueryOf cfg ev)) "#delete_last_message" = false)
    (hpost : env.postRes 0 = .ok (some t0)) (ht0 : t0 ≠ "")
    (hgh : isPotentialGh cfg (cleanedQueryOf cfg ev) = true)
    (htok : cfg.githubToken = true) (hoct : cfg.hasOctokit = true)
    (hchan : ev.channel ≠ "") :
    ((run cfg env ev).filter isQueryEv = [] ∧
     (∀ rid, releaseMatch cfg.commandPfx (cleanedQueryOf cfg ev) = some rid →
        (run cfg env ev).filter isExecEv = [Ev.execRelease rid])) ∧
    (∀ cap, releaseMatch cfg.commandPfx (cleanedQueryOf cfg ev) = none →
       prMatch cfg.commandPfx (cleanedQueryOf cfg ev) = some cap →
       ((cap.owner ≠ "" && cap.repo ≠ "" && cap.digits ≠ [] && cap.wsSlug ≠ "") = true →
          (run cfg env ev).filter isExecEv =
            [Ev.execPrReview cap.owner cap.repo (digitsToNat cap.digits) cap.wsSlug]) ∧
       ((cap.owner ≠ "" && cap.repo ≠ "" && cap.digits ≠ [] && cap.wsSlug ≠ "") = false →
          (run cfg env ev).filter isExecEv = [] ∧
          Ev.update ev.channel t0 prFormatErrText ∈ run cfg env ev)) ∧
    (∀ cap, releaseMatch cfg.commandPfx (cleanedQueryOf cfg ev) = none →
       prMatch cfg.commandPfx (cleanedQueryOf cfg ev) = none →
       issueMatch cfg.commandPfx (cleanedQueryOf cfg ev) = some cap →
       (cap.digits ≠ [] →
          Ev.getMapping ev.channel (replyTargetOf ev) ∈ run cfg env ev ∧
          ((run cfg env ev).filter isExecEv).all isExecIssueEv = true) ∧
       (cap.digits = [] →
          (run cfg env ev).filter isExecEv = [] ∧
          Ev.update ev.channel t0 issueFormatErrText ∈ run cfg env ev)) ∧
    (∀ aq, releaseMatch cfg.commandPfx (cleanedQueryOf cfg ev) = none →
       prMatch cfg.commandPfx (cleanedQueryOf cfg ev) = none →
       issueMatch cfg.commandPfx (cleanedQueryOf cfg ev) = none →
       apiMatch cfg.commandPfx (cleanedQueryOf cfg ev) = some aq →
       (run cfg env ev).filter isExecEv = [Ev.execApi aq]) ∧
    (releaseMatch cfg.commandPfx (cleanedQueryOf cfg ev) = none →
       prMatch cfg.commandPfx (cleanedQueryOf cfg ev) = none →
       issueMatch cfg.commandPfx (cleanedQueryOf cfg ev) = none →
       apiMatch cfg.commandPfx (cleanedQueryOf cfg ev) = none →
       (run cfg env ev).filter isExecEv = [] ∧
       (run cfg env ev).filter (isUnknownUpd t0) =
         [Ev.update ev.channel t0 unknownCmdText]) := by
  have hgb := ghBranch_eq_tail cfg env ⟨1, 0, 0⟩ (cleanedQueryOf cfg ev) ev.channel
    (replyTargetOf ev) t0 htok hoct
  refine ⟨⟨?_, ?_⟩, ?_, ?_, ?_, ?_⟩
  · rw [run_gh_filter cfg env ev t0 hq hdel hpost ht0 hgh isQueryEv rfl]
    refine filter_eq_nil_of_kinds
      (ghBranch_kind cfg env ⟨1, 0, 0⟩ (cleanedQueryOf cfg ev) ev.channel
        (replyTargetOf ev) t0) ?_
    intro e he
    cases e <;> simp_all [evKind, isQueryEv]
  · intro rid hrel
    obtain ⟨hpm, him, ham⟩ := releaseMatch_disjoint hrel
    have hr := releaseMatch_capture_ne hrel
    rw [run_gh_filter cfg env ev t0 hq hdel hpost ht0 hgh isExecEv rfl, hgb]
    simp only [hrel]
    rw [if_pos hr]
    rw [ghTail_exec_filter cfg env (cleanedQueryOf cfg ev) ev.channel (replyTargetOf ev)
      t0 [Ev.execRelease rid] ⟨1, 0, 0⟩ env.releaseExecRes hpm him ham]
    simp [isExecEv]
  · intro cap hrel hpm
    obtain ⟨him, ham⟩ := prMatch_disjoint hpm
    constructor
    · intro hv
      have hps := prStage_valid cfg env ⟨1, 0, 0⟩ (cleanedQueryOf cfg ev) ev.channel
        t0 cap hpm hv
      rw [run_gh_filter cfg env ev t0 hq hdel hpost ht0 hgh isExecEv rfl, hgb]
      simp only [hrel]
      rw [ghTail_exec_after_pr cfg env (cleanedQueryOf cfg ev) ev.channel
        (replyTargetOf ev) t0 ⟨1, 0, 0⟩ ⟨1, 0, 0⟩ _ env.prExecRes hps him ham]
      simp [isExecEv]
    · intro hv
      have hps := prStage_invalid cfg env ⟨1, 0, 0⟩ (cleanedQueryOf cfg ev) ev.channel
        t0 cap hpm hv
      constructor
      · rw [run_gh_filter cfg env ev t0 hq hdel hpost ht0 hgh isExecEv rfl, hgb]
        simp only [hrel]
        rw [ghTail_exec_after_pr cfg env (cleanedQueryOf cfg ev) ev.channel
          (replyTargetOf ev) t0 ⟨1, 0, 0⟩ _ _ true hps him ham]
        simp [List.filter_append, updODT_exec, isExecEv]
      · refine run_gh_mem cfg env ev t0 hq hdel hpost ht0 hgh _ ?_
        rw [hgb]
        simp only [hrel]
        refine ghTail_mem_pr cfg env (cleanedQueryOf cfg ev) ev.channel
          (replyTargetOf ev) t0 ⟨1, 0, 0⟩ _ _ hps _ ?_
        exact List.mem_append_right _
          (updODT_upd_mem t0 ev.channel ht0 hchan env ⟨1, 0, 0⟩ prFormatErrText)
  · intro cap hrel hpm him
    have ham := issueMatch_disjoint him
    constructor
    · intro hd
      constructor
      · refine run_gh_mem cfg env ev t0 hq hdel hpost ht0 hgh _ ?_
        rw [hgb]
        simp only [hrel]
        rcases his : issueStage cfg env ⟨1, 0, 0⟩ (cleanedQueryOf cfg ev) ev.channel
          (replyTargetOf ev) t0 with ⟨l3, c3, b3⟩
        refine ghTail_mem_issue cfg env (cleanedQueryOf cfg ev) ev.channel
          (replyTargetOf ev) t0 ⟨1, 0, 0⟩ c3 l3 b3 hpm his _ ?_
        have := issueStage_getMapping cfg env ⟨1, 0, 0⟩ (cleanedQueryOf cfg ev)
          ev.channel (replyTargetOf ev) t0 cap him hd
        rwa [his] at this
      · rcases his : issueStage cfg env ⟨1, 0, 0⟩ (cleanedQueryOf cfg ev) ev.channel
          (replyTargetOf ev) t0 with ⟨l3, c3, b3⟩
        rw [run_gh_filter cfg env ev t0 hq hdel hpost ht0 hgh isExecEv rfl, hgb]
        simp only [hrel]
        rw [ghTail_exec_after_issue cfg env (cleanedQueryOf cfg ev) ev.channel
          (replyTargetOf ev) t0 ⟨1, 0, 0⟩ c3 l3 b3 hpm his ham]
        rw [List.all_eq_true]
        intro e hef
        have hmem := List.mem_of_mem_filter hef
        have hex := List.of_mem_filter hef
        exact issueStage_exec_issue cfg env ⟨1, 0, 0⟩ (cleanedQueryOf cfg ev) ev.channel
          (replyTargetOf ev) t0 e (by rw [his]; exact hmem) hex
    · intro hd
      have his := issueStage_invalid cfg env ⟨1, 0, 0⟩ (cleanedQueryOf cfg ev) ev.channel
        (replyTargetOf ev) t0 cap him hd
      constructor
      · rw [run_gh_filter cfg env ev t0 hq hdel hpost ht0 hgh isExecEv rfl, hgb]
        simp only [hrel]
        rw [ghTail_exec_after_issue cfg env (cleanedQueryOf cfg ev) ev.channel
          (replyTargetOf ev) t0 ⟨1, 0, 0⟩ _ _ true hpm his ham]
        simp [List.filter_append, updODT_exec, isExecEv]
      · refine run_gh_mem cfg env ev t0 hq hdel hpost ht0 hgh _ ?_
        rw [hgb]
        simp only [hrel]
        refine ghTail_mem_issue cfg env (cleanedQueryOf cfg ev) ev.channel
          (replyTargetOf ev) t0 ⟨1, 0, 0⟩ _ _ true hpm his _ ?_
        exact List.mem_append_right _
          (updODT_upd_mem t0 ev.channel ht0 hchan env ⟨1, 0, 0⟩ issueFormatErrText)
  · intro aq hrel hpm him ham
    have ha := apiMatch_capture_ne ham
    rw [run_gh_filter cfg env ev t0 hq hdel hpost ht0 hgh isExecEv rfl, hgb]
    simp only [hrel]
    exact ghTail_exec_api cfg env (cleanedQueryOf cfg ev) ev.channel (replyTargetOf ev)
      t0 ⟨1, 0, 0⟩ aq hpm him ham ha
  · intro hrel hpm him ham
    constructor
    · rw [run_gh_filter cfg env ev t0 hq hdel hpost ht0 hgh isExecEv rfl, hgb]
      simp only [hrel]
      rw [ghTail_exec_filter cfg env (cleanedQueryOf cfg ev) ev.channel
        (replyTargetOf ev) t0 [] ⟨1, 0, 0⟩ false hpm him ham]
      simp
    · rw [run_gh_filter cfg env ev t0 hq hdel hpost ht0 hgh (isUnknownUpd t0) rfl, hgb]
      simp only [hrel]
      exact ghTail_unknown_filter cfg env (cleanedQueryOf cfg ev) ev.channel
        (replyTargetOf ev) t0 ⟨1, 0, 0⟩ ht0 hchan hpm him ham

theorem claim_C1_witness :
    (run cfgA envA (evOf "gh> bogus")).filter isExecEv = [] ∧
    (run cfgA envA (evOf "gh> bogus")).filter (isUnknownUpd "T1") =
      [Ev.update "C1" "T1" unknownCmdText] := by
  have h := claim_C1 cfgA envA (evOf "gh> bogus") "T1" (by decide) (by decide)
    (by decide) (by decide) (by decide) (by decide) (by decide) (by decide)
  exact h.2.2.2.2 (by decide) (by decide) (by decide) (by decide)

end Sagan
